import Mathlib

/-! # pawlib iochannel: a shallow embedding of `src/iochannel.cpp`

The stateful class `pawlib::iochannel` is embedded as a record `iochannel`
with explicit state passing.  A member function that only mutates the object
becomes a function `iochannel → … → iochannel`; one that also talks to the
outside world (subscriber signals, `printf`, `std::cout`) returns the new
state together with the list of `Event`s it caused, in program order.

`iochannel.hpp` and the `stdutils` library are not part of the sources at
hand.  Enumerator values are modelled from the specification (each such
definition says so), and the rendering functions of `stdutils` are taken as
a parameter `stdutils` of the embedding.
-/

namespace pawlib

/-! ## Enumerations declared in `iochannel.hpp` -/

/-- Verbosity of a message (`IOFormatVerbosity`). -/
inductive IOFormatVerbosity where
  | vrb_quiet
  | vrb_normal
  | vrb_chatty
  | vrb_tmi
  deriving DecidableEq, Repr

/-- Modelled from the spec: the enumerator values of `IOFormatVerbosity`
(declared in `iochannel.hpp`, which is not among the sources).  The spec makes
verbosity a totally ordered label, "quiet is lowest, tmi highest". -/
def IOFormatVerbosity.toNat : IOFormatVerbosity → Nat
  | .vrb_quiet => 0
  | .vrb_normal => 1
  | .vrb_chatty => 2
  | .vrb_tmi => 3

instance : LE IOFormatVerbosity := ⟨fun a b => a.toNat ≤ b.toNat⟩

instance : LT IOFormatVerbosity := ⟨fun a b => a.toNat < b.toNat⟩

instance (a b : IOFormatVerbosity) : Decidable (a ≤ b) :=
  inferInstanceAs (Decidable (a.toNat ≤ b.toNat))

instance (a b : IOFormatVerbosity) : Decidable (a < b) :=
  inferInstanceAs (Decidable (a.toNat < b.toNat))

/-- Category of a message (`IOFormatCategory`); `cat_all` is the mask of all
categories and has no signal of its own. -/
inductive IOFormatCategory where
  | cat_normal
  | cat_warning
  | cat_error
  | cat_debug
  | cat_all
  deriving DecidableEq, Repr

/-- Modelled from the spec: the enumerator values of `IOFormatCategory`
(declared in `iochannel.hpp`, which is not among the sources).  The process
category mask is a "bitmask of accepted categories" that the code combines
with the category itself (`process_c & cat`, `process_c | cat`,
`process_c & ~cat`), so every category is one bit and `cat_all` is all of
them. -/
def IOFormatCategory.toNat : IOFormatCategory → Nat
  | .cat_normal => 1
  | .cat_warning => 2
  | .cat_error => 4
  | .cat_debug => 8
  | .cat_all => 15

/-- Echo target (`IOEchoMode`). -/
inductive IOEchoMode where
  | echo_none
  | echo_printf
  | echo_cout
  deriving DecidableEq, Repr

/-- How a `char` is printed (`IOFormatCharValue`). -/
inductive IOFormatCharValue where
  | char_char
  | char_int
  deriving DecidableEq, Repr

/-- Scientific notation policy (`IOFormatSciNotation`). -/
inductive IOFormatSciNotation where
  | sci_none
  | sci_auto
  | sci_on
  deriving DecidableEq, Repr

/-- Case of the digits above nine (`IOFormatNumeralCase`). -/
inductive IOFormatNumeralCase where
  | num_lower
  | num_upper
  deriving DecidableEq, Repr

/-- How a pointer is printed (`IOFormatPointer`). -/
inductive IOFormatPointer where
  | ptr_value
  | ptr_address
  | ptr_memory
  deriving DecidableEq, Repr

/-- The six flush markers (`IOSpecial`). -/
inductive IOSpecial where
  | io_end
  | io_end_keep
  | io_send
  | io_send_keep
  | io_endline
  | io_endline_keep
  deriving DecidableEq, Repr

/-- Modelled from the spec: `base_dec`, the enumerator of `IOFormatBase` for
base ten; a base is represented by its radix. -/
def base_dec : Nat := 10

/-- Modelled from the spec: `ta_none`, the text attribute "none", whose SGR
code is 0 ("0 for reset"). -/
def ta_none : Nat := 0

/-- Modelled from the spec: `fg_none`, the foreground colour "none"; the code
tests `fg > 0` to see whether a colour is set. -/
def fg_none : Nat := 0

/-- Modelled from the spec: `bg_none`, the background colour "none"; the code
tests `bg > 0` to see whether a colour is set. -/
def bg_none : Nat := 0

/-! ## Values pushed into the channel -/

/-- A C `double` (a `float` is pushed after `static_cast<double>`, which keeps
its value), kept as its 64-bit pattern; only `stdutils::dtos` looks at it. -/
structure CDouble where
  bits : Nat

/-- A pointer argument: its address, what dereferencing it yields, and the
bytes found in memory from that address on. -/
structure Pointer (α : Type) where
  address : Nat
  pointee : α
  memory : Nat → Nat

/-- The C string read from the bytes of `s`: what precedes the first NUL byte
(all of `s` when it has none).  It stands for `std::string::c_str()` handed to
a function that reads a `const char*`, and for a `const char*` argument. -/
def c_str (s : String) : String :=
  String.mk (s.data.takeWhile (fun c => c != Char.ofNat 0))

/-- The value of a plain `char` as an `int`: plain `char` is signed on the
platform modelled (x86-64, as for the `sizeof` values), so the bytes from 0x80
on are negative. -/
def char_to_int (c : Char) : Int :=
  if c.toNat % 256 < 128 then Int.ofNat (c.toNat % 256)
  else Int.ofNat (c.toNat % 256) - 256

/-- The rendering functions of `stdutils` used by `iochannel.cpp`; the library
is not among the sources, so the embedding takes it as a parameter.  Output
buffers passed by the caller become results: a function that fills a `char`
buffer returns the C string it leaves there. -/
structure stdutils where
  intlen : Int → Nat → Bool → Nat
  itoa : Int → Nat → Nat → IOFormatNumeralCase → String
  lintlen : Int → Nat → Bool → Nat
  litoa : Int → Nat → Nat → IOFormatNumeralCase → String
  uintlen : Nat → Nat → Nat
  uitoa : Nat → Nat → Nat → IOFormatNumeralCase → String
  ulintlen : Nat → Nat → Nat
  ulitoa : Nat → Nat → Nat → IOFormatNumeralCase → String
  dtos : CDouble → Nat → IOFormatSciNotation → String
  ptrtos : Nat → IOFormatNumeralCase → String
  memdump : (Nat → Nat) → Nat → Bool → Nat → String

/-- Modelled from the spec: `stdutils::itos` with its default arguments, the
"integer-to-string" rendering in base ten, with a leading `-` for negative
values.  `apply_attributes` uses it for the SGR codes. -/
def stdutils.itos (val : Int) : String :=
  if val < 0 then "-" ++ Nat.repr val.natAbs else Nat.repr val.toNat

/-! ## Observable effects -/

/-- What the channel does to the outside world.  `signal_v L` stands for the
four signals `signal_v_quiet … signal_v_tmi`, `signal_c C` for
`signal_c_normal … signal_c_error`; `printf` and `cout` are writes to the
process output. -/
inductive Event where
  | signal_v (level : IOFormatVerbosity) (msg : String) (cat : IOFormatCategory)
  | signal_c (category : IOFormatCategory) (msg : String) (vrb : IOFormatVerbosity)
  | signal_all (msg : String) (vrb : IOFormatVerbosity) (cat : IOFormatCategory)
  | printf (text : String)
  | cout (text : String)
  deriving DecidableEq, Repr

/-- The message a signal event carries (`none` for a write to the process
output). -/
def Event.delivered : Event → Option String
  | .signal_v _ m _ => some m
  | .signal_c _ m _ => some m
  | .signal_all m _ _ => some m
  | .printf _ => none
  | .cout _ => none

/-- The text an event writes to the process output (`none` for a signal). -/
def Event.echoed : Event → Option String
  | .printf t => some t
  | .cout t => some t
  | _ => none

/-! ## The channel state -/

/-- One thing appended to the message buffer: an SGR escape sequence built by
`apply_attributes` (with the value the dirty flag had when it was built), or
content. -/
inductive Piece where
  | sgr (text : String) (flag : Bool)
  | content (text : String)
  deriving DecidableEq, Repr

/-- The bytes of a piece. -/
def Piece.text : Piece → String
  | .sgr t _ => t
  | .content t => t

/-- The data members of `pawlib::iochannel`.  `pieces` is a history variable
that is not in the C++ class: it records how `msg` was put together (which
appended parts are escape sequences and which are content); it is written
where `msg` is written and read nowhere.  `emitted` is a second history
variable: the (text attribute, background, foreground) of the escape sequence
that `apply_attributes` built last; it is written where `format` is written
and read nowhere. -/
structure iochannel where
  msg : String
  format : String
  base : Nat
  charval : IOFormatCharValue
  precision : Nat
  sci : IOFormatSciNotation
  numcase : IOFormatNumeralCase
  ptr : IOFormatPointer
  readsize : Nat
  memformat : Nat
  ta : Nat
  fg : Nat
  bg : Nat
  dirty_attributes : Bool
  vrb : IOFormatVerbosity
  cat : IOFormatCategory
  process_v : IOFormatVerbosity
  process_c : Nat
  echomode : IOEchoMode
  echovrb : IOFormatVerbosity
  echocat : IOFormatCategory
  pieces : List Piece
  emitted : Nat × Nat × Nat
  deriving DecidableEq, Repr

namespace iochannel

/-- The constructor `iochannel::iochannel()`, which sets `ta`, `fg`, `bg`,
`base` and `dirty_attributes`.  Modelled from the spec: the initial values of
the other formatting members come from `iochannel.hpp` (not among the sources)
and are the defaults of the spec; the thresholds and the echo configuration,
on which the spec is silent, are arguments. -/
def init (process_v : IOFormatVerbosity) (process_c : Nat) (echomode : IOEchoMode)
    (echovrb : IOFormatVerbosity) (echocat : IOFormatCategory) : iochannel :=
  { msg := ""
    format := ""
    base := base_dec
    charval := .char_char
    precision := 14
    sci := .sci_auto
    numcase := .num_lower
    ptr := .ptr_value
    readsize := 1
    memformat := 0
    ta := ta_none
    fg := fg_none
    bg := bg_none
    dirty_attributes := false
    vrb := .vrb_normal
    cat := .cat_normal
    process_v := process_v
    process_c := process_c
    echomode := echomode
    echovrb := echovrb
    echocat := echocat
    pieces := []
    emitted := (ta_none, bg_none, fg_none) }

/-- The function `iochannel::apply_attributes`: when attributes are pending,
build the SGR sequence in `format`, lower the flag and answer `true`. -/
def apply_attributes (ch : iochannel) : Bool × iochannel :=
  if ch.dirty_attributes then
    let format := "\x1b["
    let format := format ++ stdutils.itos ch.ta
    let format := if ch.bg > 0 then (format ++ ";") ++ stdutils.itos ch.bg else format
    let format := if ch.fg > 0 then (format ++ ";") ++ stdutils.itos ch.fg else format
    let format := format ++ "m"
    (true, { ch with
      format := format, dirty_attributes := false, emitted := (ch.ta, ch.bg, ch.fg) })
  else
    (false, ch)

/-- The function `iochannel::can_parse`:
`(vrb <= process_v) && (process_c & cat)`. -/
def can_parse (ch : iochannel) : Bool :=
  decide (ch.vrb ≤ ch.process_v) && (ch.process_c &&& ch.cat.toNat != 0)

/-- The function `iochannel::clear_msg`. -/
def clear_msg (ch : iochannel) : iochannel :=
  { ch with msg := "", pieces := [] }

/-- The function `iochannel::configure_echo`. -/
def configure_echo (ch : iochannel) (echo : IOEchoMode) (echo_vrb : IOFormatVerbosity)
    (echo_cat : IOFormatCategory) : iochannel :=
  { ch with echomode := echo, echovrb := echo_vrb, echocat := echo_cat }

/-- The statement `msg.append(str)`; `tag` says what the history records for
the appended bytes. -/
def append (ch : iochannel) (str : String) (tag : String → Piece) : iochannel :=
  { ch with msg := ch.msg ++ str, pieces := ch.pieces ++ [tag str] }

/-- The function `iochannel::inject(const char* str, bool recursive)`, whose
`recursive` defaults to `false` at every call in the file.  `str` is the C
string the pointer designates (callers that pass `x.c_str()` pass `c_str x`).
The nested call `inject(format.c_str())` is a call of this same function;
`tag` is the history tag of `str`. -/
def inject (ch : iochannel) (str : String) (recursive : Bool) (tag : String → Piece) :
    iochannel :=
  if recursive then
    ch.append str tag
  else
    match h : ch.apply_attributes with
    | (true, ch1) =>
      (inject ch1 (c_str ch1.format) false
        (fun t => Piece.sgr t ch.dirty_attributes)).append str tag
    | (false, ch1) => ch1.append str tag
termination_by (if ch.dirty_attributes then 1 else 0)
decreasing_by
  unfold apply_attributes at h
  split at h
  · rename_i hd
    simp only [Prod.mk.injEq, true_and] at h
    subst h
    simp [hd]
  · simp at h


/-- The function `iochannel::inject(char ch)`. -/
def inject_char (ch : iochannel) (c : Char) : iochannel :=
  let r := ch.apply_attributes
  let ch1 := if r.1 then
      inject r.2 (c_str r.2.format) false (fun t => Piece.sgr t ch.dirty_attributes)
    else r.2
  { ch1 with msg := ch1.msg.push c, pieces := ch1.pieces ++ [Piece.content (String.singleton c)] }

/-- The size computation at the head of the dump branch of
`iochannel::inject(const void*, unsigned int, bool)`: `memsize` is an
`unsigned int`, so every step is taken modulo `2^32`. -/
def memsize (memformat : Nat) (len : Nat) : Nat :=
  let memsize := (len * 2 + 1) % 2 ^ 32
  let bytespacing := memformat &&& (1 <<< 0) != 0
  let wordspacing := memformat &&& (1 <<< 1) != 0
  let memsize := if bytespacing then (memsize + (len + 2 ^ 32 - 1)) % 2 ^ 32 else memsize
  if wordspacing then
    let memsize := (memsize + len / 8) % 2 ^ 32
    let memsize := if bytespacing then (memsize + len / 8) % 2 ^ 32 else memsize
    if len % 8 == 0 then
      let memsize := (memsize + 2 ^ 32 - 1) % 2 ^ 32
      if bytespacing then (memsize + 2 ^ 32 - 1) % 2 ^ 32 else memsize
    else memsize
  else memsize

/-- The function `iochannel::inject(const void* ptr, unsigned int len, bool dump)`:
the address rendered by `ptrtos`, or the dump `memdump` writes into a buffer
of `memsize` bytes. -/
def inject_ptr (U : stdutils) (ch : iochannel) (address : Nat) (memory : Nat → Nat)
    (len : Nat) (dump : Bool) : iochannel :=
  if !dump then
    ch.inject (c_str (U.ptrtos address ch.numcase)) false Piece.content
  else
    ch.inject (U.memdump memory len false ch.memformat) false Piece.content

/-- The function `iochannel::shutup(IOFormatCategory)`: `process_c & ~cat`
keeps the bits of `process_c` that are not in `cat`. -/
def shutup_cat (ch : iochannel) (cat : IOFormatCategory) : iochannel × List Event :=
  let ch1 := { ch with process_c := ch.process_c ^^^ (ch.process_c &&& cat.toNat) }
  if ch1.process_c == 0 then
    (ch1, [Event.printf "WARNING: All message categories have been turned off!\n"])
  else
    (ch1, [])

/-- The function `iochannel::shutup(IOFormatVerbosity)`. -/
def shutup_vrb (ch : iochannel) (vrb : IOFormatVerbosity) : iochannel :=
  { ch with process_v := vrb }

/-- The function `iochannel::speakup()`. -/
def speakup (ch : iochannel) : iochannel :=
  { ch with process_v := .vrb_tmi, process_c := IOFormatCategory.cat_all.toNat }

/-- The function `iochannel::speakup(IOFormatCategory)`. -/
def speakup_cat (ch : iochannel) (cat : IOFormatCategory) : iochannel :=
  { ch with process_c := ch.process_c ||| cat.toNat }

/-- The function `iochannel::reset_attributes`. -/
def reset_attributes (ch : iochannel) : iochannel :=
  if ch.ta > 0 || ch.fg > 0 || ch.bg > 0 then
    { ch with ta := ta_none, fg := fg_none, bg := bg_none, dirty_attributes := true }
  else
    ch

/-- The function `iochannel::reset_flags`. -/
def reset_flags (ch : iochannel) : iochannel :=
  let ch := ch.reset_attributes
  { ch with
    base := base_dec
    charval := .char_char
    precision := 14
    sci := .sci_auto
    numcase := .num_lower
    ptr := .ptr_value
    readsize := 1
    memformat := 0
    vrb := .vrb_normal
    cat := .cat_normal }

/-- The verbosity switch of `transmit`: the cases fall through, so the signal
of the current level is followed by those of the cases below it in the
switch. -/
def transmit_verbosity (ch : iochannel) : List Event :=
  match ch.vrb with
  | .vrb_quiet =>
    [Event.signal_v .vrb_quiet ch.msg ch.cat, Event.signal_v .vrb_normal ch.msg ch.cat,
      Event.signal_v .vrb_chatty ch.msg ch.cat, Event.signal_v .vrb_tmi ch.msg ch.cat]
  | .vrb_normal =>
    [Event.signal_v .vrb_normal ch.msg ch.cat, Event.signal_v .vrb_chatty ch.msg ch.cat,
      Event.signal_v .vrb_tmi ch.msg ch.cat]
  | .vrb_chatty =>
    [Event.signal_v .vrb_chatty ch.msg ch.cat, Event.signal_v .vrb_tmi ch.msg ch.cat]
  | .vrb_tmi => [Event.signal_v .vrb_tmi ch.msg ch.cat]

/-- The category switch of `transmit`: every case ends in `break`, and
`cat_all` has no signal. -/
def transmit_category (ch : iochannel) : List Event :=
  match ch.cat with
  | .cat_normal => [Event.signal_c .cat_normal ch.msg ch.vrb]
  | .cat_debug => [Event.signal_c .cat_debug ch.msg ch.vrb]
  | .cat_warning => [Event.signal_c .cat_warning ch.msg ch.vrb]
  | .cat_error => [Event.signal_c .cat_error ch.msg ch.vrb]
  | .cat_all => []

/-- The echo part of `transmit`: `printf("%s", msg.c_str())` and
`std::cout << msg.c_str()` write the C string of the buffer. -/
def transmit_echo (ch : iochannel) : List Event :=
  if ch.echomode != .echo_none then
    if decide (ch.vrb ≤ ch.echovrb) && (ch.cat == ch.echocat || ch.echocat == .cat_all) then
      match ch.echomode with
      | .echo_printf => [Event.printf (c_str ch.msg)]
      | .echo_cout => [Event.cout (c_str ch.msg)]
      | .echo_none => []
    else []
  else []

/-- The function `iochannel::transmit(bool keep)` (`keep` defaults to
`false`): nothing happens on an empty message; otherwise the signals, the
echo, the reset unless `keep`, and the buffer is cleared. -/
def transmit (ch : iochannel) (keep : Bool) : iochannel × List Event :=
  if ch.msg != "" then
    let events := ch.transmit_verbosity ++ ch.transmit_category
      ++ [Event.signal_all ch.msg ch.vrb ch.cat] ++ ch.transmit_echo
    let ch1 := if !keep then ch.reset_flags else ch
    (ch1.clear_msg, events)
  else
    (ch, [])

/-! ## The overloads of `operator<<` -/

/-- The value of `sizeof(bool)`. -/
def sizeof_bool : Nat := 1

/-- The value of `sizeof(int)` (LP64). -/
def sizeof_int : Nat := 4

/-- The value of `sizeof(long int)` (LP64). -/
def sizeof_long_int : Nat := 8

/-- The value of `sizeof(unsigned int)` (LP64). -/
def sizeof_unsigned_int : Nat := 4

/-- The value of `sizeof(unsigned long int)` (LP64). -/
def sizeof_unsigned_long_int : Nat := 8

/-- The value of `sizeof(float)`. -/
def sizeof_float : Nat := 4

/-- The value of `sizeof(double)`. -/
def sizeof_double : Nat := 8

/-- The value of `sizeof(char)`. -/
def sizeof_char : Nat := 1

/-- The overload `operator<<(const bool& rhs)`. -/
def push_bool (ch : iochannel) (rhs : Bool) : iochannel :=
  if !ch.can_parse then ch
  else
    let str := if rhs then "TRUE" else "FALSE"
    ch.inject str false Piece.content

/-- The overload `operator<<(const bool* rhs)`. -/
def push_bool_ptr (U : stdutils) (ch : iochannel) (rhs : Pointer Bool) : iochannel :=
  if !ch.can_parse then ch
  else
    match ch.ptr with
    | .ptr_value => push_bool ch rhs.pointee
    | .ptr_address => inject_ptr U ch rhs.address rhs.memory sizeof_bool false
    | .ptr_memory => inject_ptr U ch rhs.address rhs.memory sizeof_bool true

/-- The overload `operator<<(const int& rhs)`. -/
def push_int (U : stdutils) (ch : iochannel) (rhs : Int) : iochannel :=
  if !ch.can_parse then ch
  else
    let len := U.intlen rhs ch.base true
    ch.inject (U.itoa rhs ch.base len ch.numcase) false Piece.content

/-- The overload `operator<<(const int* rhs)`. -/
def push_int_ptr (U : stdutils) (ch : iochannel) (rhs : Pointer Int) : iochannel :=
  if !ch.can_parse then ch
  else
    match ch.ptr with
    | .ptr_value => push_int U ch rhs.pointee
    | .ptr_address => inject_ptr U ch rhs.address rhs.memory sizeof_int false
    | .ptr_memory => inject_ptr U ch rhs.address rhs.memory sizeof_int true

/-- The overload `operator<<(const long int& rhs)`. -/
def push_long_int (U : stdutils) (ch : iochannel) (rhs : Int) : iochannel :=
  if !ch.can_parse then ch
  else
    let len := U.lintlen rhs ch.base true
    ch.inject (U.litoa rhs ch.base len ch.numcase) false Piece.content

/-- The overload `operator<<(const long int* rhs)`. -/
def push_long_int_ptr (U : stdutils) (ch : iochannel) (rhs : Pointer Int) : iochannel :=
  if !ch.can_parse then ch
  else
    match ch.ptr with
    | .ptr_value => push_long_int U ch rhs.pointee
    | .ptr_address => inject_ptr U ch rhs.address rhs.memory sizeof_long_int false
    | .ptr_memory => inject_ptr U ch rhs.address rhs.memory sizeof_long_int true

/-- The overload `operator<<(const unsigned int& rhs)`. -/
def push_unsigned_int (U : stdutils) (ch : iochannel) (rhs : Nat) : iochannel :=
  if !ch.can_parse then ch
  else
    let len := U.uintlen rhs ch.base
    ch.inject (U.uitoa rhs ch.base len ch.numcase) false Piece.content

/-- The overload `operator<<(const unsigned int* rhs)`. -/
def push_unsigned_int_ptr (U : stdutils) (ch : iochannel) (rhs : Pointer Nat) : iochannel :=
  if !ch.can_parse then ch
  else
    match ch.ptr with
    | .ptr_value => push_unsigned_int U ch rhs.pointee
    | .ptr_address => inject_ptr U ch rhs.address rhs.memory sizeof_unsigned_int false
    | .ptr_memory => inject_ptr U ch rhs.address rhs.memory sizeof_unsigned_int true

/-- The overload `operator<<(const unsigned long int& rhs)`. -/
def push_unsigned_long_int (U : stdutils) (ch : iochannel) (rhs : Nat) : iochannel :=
  if !ch.can_parse then ch
  else
    let len := U.ulintlen rhs ch.base
    ch.inject (U.ulitoa rhs ch.base len ch.numcase) false Piece.content

/-- The overload `operator<<(const unsigned long int* rhs)`. -/
def push_unsigned_long_int_ptr (U : stdutils) (ch : iochannel) (rhs : Pointer Nat) : iochannel :=
  if !ch.can_parse then ch
  else
    match ch.ptr with
    | .ptr_value => push_unsigned_long_int U ch rhs.pointee
    | .ptr_address => inject_ptr U ch rhs.address rhs.memory sizeof_unsigned_long_int false
    | .ptr_memory => inject_ptr U ch rhs.address rhs.memory sizeof_unsigned_long_int true

/-- The overload `operator<<(const double& rhs)`. -/
def push_double (U : stdutils) (ch : iochannel) (rhs : CDouble) : iochannel :=
  if !ch.can_parse then ch
  else ch.inject (c_str (U.dtos rhs ch.precision ch.sci)) false Piece.content

/-- The overload `operator<<(const float& rhs)`; `rhs` is the value after
`static_cast<double>`. -/
def push_float (U : stdutils) (ch : iochannel) (rhs : CDouble) : iochannel :=
  if !ch.can_parse then ch
  else push_double U ch rhs

/-- The overload `operator<<(const float* rhs)`. -/
def push_float_ptr (U : stdutils) (ch : iochannel) (rhs : Pointer CDouble) : iochannel :=
  if !ch.can_parse then ch
  else
    match ch.ptr with
    | .ptr_value => push_float U ch rhs.pointee
    | .ptr_address => inject_ptr U ch rhs.address rhs.memory sizeof_float false
    | .ptr_memory => inject_ptr U ch rhs.address rhs.memory sizeof_float true

/-- The overload `operator<<(const double* rhs)`. -/
def push_double_ptr (U : stdutils) (ch : iochannel) (rhs : Pointer CDouble) : iochannel :=
  if !ch.can_parse then ch
  else
    match ch.ptr with
    | .ptr_value => push_double U ch rhs.pointee
    | .ptr_address => inject_ptr U ch rhs.address rhs.memory sizeof_double false
    | .ptr_memory => inject_ptr U ch rhs.address rhs.memory sizeof_double true

/-- The overload `operator<<(const char& rhs)`. -/
def push_char (U : stdutils) (ch : iochannel) (rhs : Char) : iochannel :=
  if !ch.can_parse then ch
  else
    match ch.charval with
    | .char_char => ch.inject_char rhs
    | .char_int =>
      let len := U.intlen (char_to_int rhs) ch.base true
      ch.inject (U.itoa (char_to_int rhs) ch.base len ch.numcase) false Piece.content

/-- The overload `operator<<(const char* rhs)`; the pointee holds the bytes
that start at `rhs`, of which the C string is what precedes the first NUL. -/
def push_char_ptr (U : stdutils) (ch : iochannel) (rhs : Pointer String) : iochannel :=
  if !ch.can_parse then ch
  else
    match ch.ptr with
    | .ptr_value => ch.inject (c_str rhs.pointee) false Piece.content
    | .ptr_address => inject_ptr U ch rhs.address rhs.memory sizeof_char false
    | .ptr_memory =>
      inject_ptr U ch rhs.address rhs.memory
        (((c_str rhs.pointee).utf8ByteSize + 1) * sizeof_char) true

/-- The string literal `operator<<(const void*)` pushes for `ptr_value`; where
the literal lives is not known, and the `ptr_value` path does not use it. -/
def void_ptr_placeholder : Pointer String :=
  { address := 0
    pointee := "[iochannel cannot interpret value at pointer of this type.]"
    memory := fun _ => 0 }

/-- The overload `operator<<(const void* rhs)`. -/
def push_void_ptr (U : stdutils) (ch : iochannel) (rhs : Pointer Unit) : iochannel :=
  if !ch.can_parse then ch
  else
    match ch.ptr with
    | .ptr_value => push_char_ptr U ch void_ptr_placeholder
    | .ptr_address => inject_ptr U ch rhs.address rhs.memory 1 false
    | .ptr_memory => inject_ptr U ch rhs.address rhs.memory ch.readsize true

/-- The overload `operator<<(const std::string& rhs)`. -/
def push_string (ch : iochannel) (rhs : String) : iochannel :=
  if !ch.can_parse then ch
  else ch.inject (c_str rhs) false Piece.content

/-- The overload `operator<<(const IOFormatBase& rhs)`. -/
def push_base (ch : iochannel) (rhs : Nat) : iochannel :=
  if !ch.can_parse then ch
  else { ch with base := rhs }

/-- The overload `operator<<(const IOFormatCharValue& rhs)`. -/
def push_charval (ch : iochannel) (rhs : IOFormatCharValue) : iochannel :=
  if !ch.can_parse then ch
  else { ch with charval := rhs }

/-- The overload `operator<<(const set_precision& rhs)`. -/
def push_set_precision (ch : iochannel) (rhs : Nat) : iochannel :=
  if !ch.can_parse then ch
  else { ch with precision := rhs }

/-- The overload `operator<<(const IOFormatSciNotation& rhs)`. -/
def push_sci (ch : iochannel) (rhs : IOFormatSciNotation) : iochannel :=
  if !ch.can_parse then ch
  else { ch with sci := rhs }

/-- The overload `operator<<(const IOFormatNumeralCase& rhs)`. -/
def push_numcase (ch : iochannel) (rhs : IOFormatNumeralCase) : iochannel :=
  if !ch.can_parse then ch
  else { ch with numcase := rhs }

/-- The overload `operator<<(const IOFormatPointer& rhs)`. -/
def push_ptr (ch : iochannel) (rhs : IOFormatPointer) : iochannel :=
  if !ch.can_parse then ch
  else { ch with ptr := rhs }

/-- The overload `operator<<(const IOFormatMemorySeparators& rhs)`. -/
def push_memsep (ch : iochannel) (rhs : Nat) : iochannel :=
  if !ch.can_parse then ch
  else if rhs == 0 then { ch with memformat := 0 }
  else { ch with memformat := ch.memformat ||| rhs }

/-- The overload `operator<<(const IOFormatTextBG& rhs)`. -/
def push_bg (ch : iochannel) (rhs : Nat) : iochannel :=
  if !ch.can_parse then ch
  else { ch with bg := rhs, dirty_attributes := true }

/-- The overload `operator<<(const IOFormatTextFG& rhs)`. -/
def push_fg (ch : iochannel) (rhs : Nat) : iochannel :=
  if !ch.can_parse then ch
  else { ch with fg := rhs, dirty_attributes := true }

/-- The overload `operator<<(const IOFormatTextAttributes& rhs)`. -/
def push_ta (ch : iochannel) (rhs : Nat) : iochannel :=
  if !ch.can_parse then ch
  else { ch with ta := rhs, dirty_attributes := true }

/-- The overload `operator<<(const read_size& rhs)`. -/
def push_read_size (ch : iochannel) (rhs : Nat) : iochannel :=
  if !ch.can_parse then ch
  else { ch with readsize := rhs }

/-- The overload `operator<<(const IOFormatVerbosity& rhs)`. -/
def push_verbosity (ch : iochannel) (rhs : IOFormatVerbosity) : iochannel :=
  { ch with vrb := rhs }

/-- The overload `operator<<(const IOFormatCategory& rhs)`. -/
def push_category (ch : iochannel) (rhs : IOFormatCategory) : iochannel :=
  { ch with cat := rhs }

/-- The statement `(can_parse()) ? inject("\n") : inject("")` of the flush
markers. -/
def inject_newline (ch : iochannel) : iochannel :=
  if ch.can_parse then ch.inject "\n" false Piece.content
  else ch.inject "" false Piece.content

/-- The overload `operator<<(const IOSpecial& rhs)`. -/
def push_special (ch : iochannel) (rhs : IOSpecial) : iochannel × List Event :=
  match rhs with
  | .io_end => (ch.reset_attributes.inject_newline).transmit false
  | .io_end_keep => ch.inject_newline.transmit true
  | .io_send => (ch.reset_attributes.inject "" false Piece.content).transmit true
  | .io_send_keep => (ch.inject "" false Piece.content).transmit true
  | .io_endline => (ch.reset_attributes.inject_newline, [])
  | .io_endline_keep => (ch.inject_newline, [])

end iochannel

/-! ## Sequences of pushes -/

/-- Anything that can be pushed into the channel with `<<`, one constructor
per overload of `operator<<`. -/
inductive Token where
  | bool (rhs : Bool)
  | bool_ptr (rhs : Pointer Bool)
  | int (rhs : Int)
  | int_ptr (rhs : Pointer Int)
  | long_int (rhs : Int)
  | long_int_ptr (rhs : Pointer Int)
  | unsigned_int (rhs : Nat)
  | unsigned_int_ptr (rhs : Pointer Nat)
  | unsigned_long_int (rhs : Nat)
  | unsigned_long_int_ptr (rhs : Pointer Nat)
  | float (rhs : CDouble)
  | float_ptr (rhs : Pointer CDouble)
  | double (rhs : CDouble)
  | double_ptr (rhs : Pointer CDouble)
  | void_ptr (rhs : Pointer Unit)
  | char (rhs : Char)
  | char_ptr (rhs : Pointer String)
  | string (rhs : String)
  | base (rhs : Nat)
  | charval (rhs : IOFormatCharValue)
  | set_precision (rhs : Nat)
  | sci (rhs : IOFormatSciNotation)
  | numcase (rhs : IOFormatNumeralCase)
  | ptr (rhs : IOFormatPointer)
  | memsep (rhs : Nat)
  | bg (rhs : Nat)
  | fg (rhs : Nat)
  | ta (rhs : Nat)
  | read_size (rhs : Nat)
  | verbosity (rhs : IOFormatVerbosity)
  | category (rhs : IOFormatCategory)
  | special (rhs : IOSpecial)

namespace iochannel

/-- The expression `ch << t`: overload resolution on the kind of `t`. -/
def push (U : stdutils) (ch : iochannel) : Token → iochannel × List Event
  | .bool rhs => (push_bool ch rhs, [])
  | .bool_ptr rhs => (push_bool_ptr U ch rhs, [])
  | .int rhs => (push_int U ch rhs, [])
  | .int_ptr rhs => (push_int_ptr U ch rhs, [])
  | .long_int rhs => (push_long_int U ch rhs, [])
  | .long_int_ptr rhs => (push_long_int_ptr U ch rhs, [])
  | .unsigned_int rhs => (push_unsigned_int U ch rhs, [])
  | .unsigned_int_ptr rhs => (push_unsigned_int_ptr U ch rhs, [])
  | .unsigned_long_int rhs => (push_unsigned_long_int U ch rhs, [])
  | .unsigned_long_int_ptr rhs => (push_unsigned_long_int_ptr U ch rhs, [])
  | .float rhs => (push_float U ch rhs, [])
  | .float_ptr rhs => (push_float_ptr U ch rhs, [])
  | .double rhs => (push_double U ch rhs, [])
  | .double_ptr rhs => (push_double_ptr U ch rhs, [])
  | .void_ptr rhs => (push_void_ptr U ch rhs, [])
  | .char rhs => (push_char U ch rhs, [])
  | .char_ptr rhs => (push_char_ptr U ch rhs, [])
  | .string rhs => (push_string ch rhs, [])
  | .base rhs => (push_base ch rhs, [])
  | .charval rhs => (push_charval ch rhs, [])
  | .set_precision rhs => (push_set_precision ch rhs, [])
  | .sci rhs => (push_sci ch rhs, [])
  | .numcase rhs => (push_numcase ch rhs, [])
  | .ptr rhs => (push_ptr ch rhs, [])
  | .memsep rhs => (push_memsep ch rhs, [])
  | .bg rhs => (push_bg ch rhs, [])
  | .fg rhs => (push_fg ch rhs, [])
  | .ta rhs => (push_ta ch rhs, [])
  | .read_size rhs => (push_read_size ch rhs, [])
  | .verbosity rhs => (push_verbosity ch rhs, [])
  | .category rhs => (push_category ch rhs, [])
  | .special rhs => push_special ch rhs

/-- The chain `ch << t1 << t2 << …`, with the events in program order. -/
def run (U : stdutils) (ch : iochannel) : List Token → iochannel × List Event
  | [] => (ch, [])
  | t :: ts =>
    let r := push U ch t
    let rs := run U r.1 ts
    (rs.1, r.2 ++ rs.2)

end iochannel

/-! ## Vocabulary of the properties -/

/-- The escape sequence the interface prescribes for text attribute `A`,
background `B` and foreground `F`: `ESC [ A (; B)? (; F)? m`, a colour being
present when its code is positive. -/
def sgr_sequence (A B F : Nat) : String :=
  "\x1b[" ++ stdutils.itos A ++ (if B > 0 then ";" ++ stdutils.itos B else "")
    ++ (if F > 0 then ";" ++ stdutils.itos F else "") ++ "m"

/-- Is the event an invocation of a verbosity-axis subscriber set? -/
def Event.is_signal_v : Event → Bool
  | .signal_v _ _ _ => true
  | _ => false

/-- Is the event an invocation of a category-axis subscriber set? -/
def Event.is_signal_c : Event → Bool
  | .signal_c _ _ _ => true
  | _ => false

/-- Is the event an invocation of the "all" channel? -/
def Event.is_signal_all : Event → Bool
  | .signal_all _ _ _ => true
  | _ => false

/-- The condition under which the spec has `transmit` echo a message. -/
def iochannel.echo_wanted (ch : iochannel) : Prop :=
  ch.echomode ≠ .echo_none ∧ ch.vrb ≤ ch.echovrb ∧
    (ch.cat = ch.echocat ∨ ch.echocat = .cat_all)

instance (ch : iochannel) : Decidable ch.echo_wanted :=
  inferInstanceAs (Decidable (_ ∧ _ ∧ _))

/-- Every transient formatting field has its default value. -/
def iochannel.transient_default (ch : iochannel) : Prop :=
  ch.base = base_dec ∧ ch.numcase = .num_lower ∧ ch.sci = .sci_auto ∧ ch.precision = 14 ∧
    ch.charval = .char_char ∧ ch.ptr = .ptr_value ∧ ch.readsize = 1 ∧ ch.memformat = 0 ∧
    ch.fg = fg_none ∧ ch.bg = bg_none ∧ ch.ta = ta_none ∧
    ch.vrb = .vrb_normal ∧ ch.cat = .cat_normal

instance (ch : iochannel) : Decidable ch.transient_default :=
  inferInstanceAs (Decidable (_ ∧ _ ∧ _ ∧ _ ∧ _ ∧ _ ∧ _ ∧ _ ∧ _ ∧ _ ∧ _ ∧ _ ∧ _))

/-- The two states agree on every formatting field (base, numeral case,
scientific mode, precision, char handling, pointer handling, read size,
memory-dump mask, foreground, background, text attribute, current verbosity
and current category). -/
def iochannel.same_formatting (a b : iochannel) : Prop :=
  a.base = b.base ∧ a.numcase = b.numcase ∧ a.sci = b.sci ∧ a.precision = b.precision ∧
    a.charval = b.charval ∧ a.ptr = b.ptr ∧ a.readsize = b.readsize ∧
    a.memformat = b.memformat ∧ a.fg = b.fg ∧ a.bg = b.bg ∧ a.ta = b.ta ∧
    a.vrb = b.vrb ∧ a.cat = b.cat

instance (a b : iochannel) : Decidable (a.same_formatting b) :=
  inferInstanceAs (Decidable (_ ∧ _ ∧ _ ∧ _ ∧ _ ∧ _ ∧ _ ∧ _ ∧ _ ∧ _ ∧ _ ∧ _ ∧ _))

/-- The tokens whose overload starts with the `can_parse` test: every append
and modifier, but not the verbosity and category tokens and not the flush
markers. -/
def Token.gated : Token → Bool
  | .verbosity _ => false
  | .category _ => false
  | .special _ => false
  | _ => true

/-- A sample state: a fresh channel with the widest thresholds and no echo. -/
def iochannel.sample : iochannel :=
  iochannel.init .vrb_tmi IOFormatCategory.cat_all.toNat .echo_none .vrb_tmi .cat_all

/-! ## A reference rendering library -/

/-- Modelled from the spec: the digit characters, `0`–`9` then `a`–`f` or
`A`–`F` according to the numeral case. -/
def stdutils.digit (numcase : IOFormatNumeralCase) (d : Nat) : Char :=
  if d < 10 then Char.ofNat (48 + d)
  else
    match numcase with
    | .num_lower => Char.ofNat (87 + d)
    | .num_upper => Char.ofNat (55 + d)

/-- Modelled from the spec: the positional rendering of `n` in `base`, most
significant digit first; `fuel` bounds the number of digits. -/
def stdutils.digits (base : Nat) (numcase : IOFormatNumeralCase) : Nat → Nat → String
  | 0, n => String.singleton (stdutils.digit numcase (n % base))
  | fuel + 1, n =>
    if n < base then String.singleton (stdutils.digit numcase n)
    else (stdutils.digits base numcase fuel (n / base)).push (stdutils.digit numcase (n % base))

/-- Modelled from the spec: integer-to-string, "negative inputs of signed
variants produce a leading `-`; base is pure positional". -/
def stdutils.render_int (val : Int) (base : Nat) (numcase : IOFormatNumeralCase) : String :=
  if val < 0 then "-" ++ stdutils.digits base numcase val.natAbs val.natAbs
  else stdutils.digits base numcase val.natAbs val.natAbs

/-- Modelled from the spec: the hexadecimal rendering of `n` with leading
zeros up to `width` digits. -/
def stdutils.render_hex (numcase : IOFormatNumeralCase) (width : Nat) (n : Nat) : String :=
  let body := stdutils.digits 16 numcase n n
  String.mk (List.replicate (width - body.length) (Char.ofNat 48)) ++ body

/-- Modelled from the spec: the memory dump of bytes `i, i+1, …` up to `len`:
two hex digits per byte; between bytes a `|` at an 8-byte word boundary when
the word separator is on, else a space when the byte separator is on; no
trailing separator. -/
def stdutils.render_dump (memory : Nat → Nat) (len : Nat) (use_caps : Bool) (memformat : Nat) :
    Nat → Nat → String
  | 0, _ => ""
  | fuel + 1, i =>
    let numcase := if use_caps then IOFormatNumeralCase.num_upper else IOFormatNumeralCase.num_lower
    let byte := stdutils.render_hex numcase 2 (memory i % 256)
    let sep :=
      if i + 1 < len then
        if (memformat &&& 2 != 0) && (i + 1) % 8 == 0 then "|"
        else if memformat &&& 1 != 0 then " "
        else ""
      else ""
    byte ++ sep ++ stdutils.render_dump memory len use_caps memformat fuel (i + 1)

/-- Modelled from the spec: a reference `stdutils` (section 4.2), used to run
the embedding on concrete inputs.  Floating point is outside the embedding:
`dtos` prints the bit pattern of its argument. -/
def stdutils.reference : stdutils :=
  { intlen := fun val base _ => (stdutils.render_int val base .num_lower).length
    itoa := fun val base _ numcase => stdutils.render_int val base numcase
    lintlen := fun val base _ => (stdutils.render_int val base .num_lower).length
    litoa := fun val base _ numcase => stdutils.render_int val base numcase
    uintlen := fun val base => (stdutils.digits base .num_lower val val).length
    uitoa := fun val base _ numcase => stdutils.digits base numcase val val
    ulintlen := fun val base => (stdutils.digits base .num_lower val val).length
    ulitoa := fun val base _ numcase => stdutils.digits base numcase val val
    dtos := fun d _ _ => "0x" ++ stdutils.render_hex .num_lower 16 d.bits
    ptrtos := fun address numcase => stdutils.render_hex numcase 16 address
    memdump := fun memory len use_caps memformat =>
      stdutils.render_dump memory len use_caps memformat len 0 }

/-- Is the piece an escape sequence? -/
def Piece.is_sgr : Piece → Bool
  | .sgr _ _ => true
  | .content _ => false

/-- The value the dirty flag had when an escape sequence was built (`true`
for content, of which nothing is asked). -/
def Piece.built_dirty : Piece → Bool
  | .sgr _ flag => flag
  | .content _ => true

/-- The bytes of a history, in order. -/
def flatten (ps : List Piece) : String :=
  String.join (ps.map Piece.text)

/-- The pieces that hold at least one byte. -/
def visible (ps : List Piece) : List Piece :=
  ps.filter (fun p => p.text != "")

/-- Every escape sequence of the history was built while the dirty flag was
set. -/
def sgr_only_when_dirty (ps : List Piece) : Prop :=
  ∀ p ∈ ps, p.built_dirty = true

/-- No two escape sequences are adjacent in the buffer: among the pieces that
hold a byte, an escape sequence is never directly followed by another one. -/
def no_adjacent_sgr (ps : List Piece) : Prop :=
  List.Chain' (fun a b => ¬ (a.is_sgr = true ∧ b.is_sgr = true)) (visible ps)

instance (ps : List Piece) : Decidable (sgr_only_when_dirty ps) :=
  inferInstanceAs (Decidable (∀ p ∈ ps, p.built_dirty = true))

instance (ps : List Piece) : Decidable (no_adjacent_sgr ps) :=
  inferInstanceAs (Decidable (List.Chain' _ (visible ps)))

/-- The history is an account of the buffer that obeys the SGR discipline. -/
def iochannel.well_formed (ch : iochannel) : Prop :=
  flatten ch.pieces = ch.msg ∧ sgr_only_when_dirty ch.pieces ∧ no_adjacent_sgr ch.pieces

/-- The state in which `operator<<(const IOSpecial&)` calls `transmit` (for
`io_endline` and `io_endline_keep`, in which it returns): the marker's
`reset_attributes` and `inject` are done. -/
def iochannel.before_transmit (ch : iochannel) : IOSpecial → iochannel
  | .io_end => ch.reset_attributes.inject_newline
  | .io_end_keep => ch.inject_newline
  | .io_send => ch.reset_attributes.inject "" false Piece.content
  | .io_send_keep => ch.inject "" false Piece.content
  | .io_endline => ch.reset_attributes.inject_newline
  | .io_endline_keep => ch.inject_newline

/-- The two states agree on the filter thresholds (process verbosity, process
category mask) and on the echo configuration (mode, verbosity, category). -/
def iochannel.same_policy (a b : iochannel) : Prop :=
  a.process_v = b.process_v ∧ a.process_c = b.process_c ∧ a.echomode = b.echomode ∧
    a.echovrb = b.echovrb ∧ a.echocat = b.echocat

instance (a b : iochannel) : Decidable (a.same_policy b) :=
  inferInstanceAs (Decidable (_ ∧ _ ∧ _ ∧ _ ∧ _))

/-- Modelled from the spec: the byte-separator flag of
`IOFormatMemorySeparators`; `inject` reads it as `memformat & (1 << 0)`. -/
def mem_bytesep : Nat := 1

/-- Modelled from the spec: the word-separator flag of
`IOFormatMemorySeparators`; `inject` reads it as `memformat & (1 << 1)`. -/
def mem_wordsep : Nat := 2

/-- A sample state whose filter rejects: foreground red was pushed while the
filter accepted, then `debug` was muted and made the current category. -/
def iochannel.sample_muted_red : iochannel :=
  (((iochannel.sample.push_fg 31).shutup_cat .cat_debug).1).push_category .cat_debug

/-! ## Vocabulary of the flush markers, the attribute history and the dump size -/

/-- The two states agree on every formatting field other than the three
attributes: base, numeral case, scientific mode, precision, char handling,
pointer handling, read size, memory-dump mask, current verbosity and current
category. -/
def iochannel.same_plain_formatting (a b : iochannel) : Prop :=
  a.base = b.base ∧ a.numcase = b.numcase ∧ a.sci = b.sci ∧ a.precision = b.precision ∧
    a.charval = b.charval ∧ a.ptr = b.ptr ∧ a.readsize = b.readsize ∧
    a.memformat = b.memformat ∧ a.vrb = b.vrb ∧ a.cat = b.cat

instance (a b : iochannel) : Decidable (a.same_plain_formatting b) :=
  inferInstanceAs (Decidable (_ ∧ _ ∧ _ ∧ _ ∧ _ ∧ _ ∧ _ ∧ _ ∧ _ ∧ _))

/-- The channel's current logical attribute triple (text attribute,
background, foreground). -/
def iochannel.attributes (ch : iochannel) : Nat × Nat × Nat :=
  (ch.ta, ch.bg, ch.fg)

/-- A sample state with "x" in the buffer and a foreground colour pending. -/
def iochannel.sample_pending : iochannel :=
  (iochannel.sample.push_string "x").push_fg 31

/-- The length of the dump the spec describes for `len` bytes: two hex digits
per byte, `len - 1` single spaces when the byte-separator flag is set, and one
bar per boundary between 8-byte words, `(len - 1) / 8` of them, when the
word-separator flag is set. -/
def spec_dump_length (memformat : Nat) (len : Nat) : Nat :=
  2 * len + (if memformat &&& mem_bytesep ≠ 0 then len - 1 else 0)
    + (if memformat &&& mem_wordsep ≠ 0 then (len - 1) / 8 else 0)

/-- The dirty flag covers every difference between the attributes of the
escape sequence emitted last and the current attributes: when the flag is
clear the two agree. -/
def iochannel.tracked (ch : iochannel) : Prop :=
  ch.dirty_attributes = false → ch.emitted = ch.attributes

/-- A sample state whose buffer holds a NUL byte: echo to `printf` is on, and
the characters `a`, NUL and `b` were pushed one by one. -/
def iochannel.sample_nul : iochannel :=
  (((iochannel.sample.configure_echo .echo_printf .vrb_tmi .cat_all).push_char
    stdutils.reference (Char.ofNat 97)).push_char
    stdutils.reference (Char.ofNat 0)).push_char stdutils.reference (Char.ofNat 98)

end pawlib

/-! ## Basic facts about the embedding -/

namespace pawlib

theorem IOFormatVerbosity.le_def (a b : IOFormatVerbosity) : a ≤ b ↔ a.toNat ≤ b.toNat :=
  Iff.rfl

theorem c_str_of_no_nul (s : String) (h : ∀ c ∈ s.data, c ≠ Char.ofNat 0) : c_str s = s := by
  unfold c_str
  apply String.ext
  show s.data.takeWhile (fun c => c != Char.ofNat 0) = s.data
  rw [List.takeWhile_eq_self_iff]
  intro c hc
  simpa using h c hc

theorem c_str_empty : c_str "" = "" := by decide

theorem digitChar_ne_nul (n : Nat) : Nat.digitChar n ≠ Char.ofNat 0 := by
  by_cases h : n < 16
  · interval_cases n <;> decide
  · have hstar : Nat.digitChar n = '*' := by
      unfold Nat.digitChar
      repeat rw [if_neg (by omega)]
    rw [hstar]
    decide

theorem toDigitsCore_no_nul (base : Nat) :
    ∀ (fuel n : Nat) (ds : List Char), (∀ c ∈ ds, c ≠ Char.ofNat 0) →
      ∀ c ∈ Nat.toDigitsCore base fuel n ds, c ≠ Char.ofNat 0 := by
  intro fuel
  induction fuel with
  | zero =>
    intro n ds h c hc
    exact h c hc
  | succ k ih =>
    intro n ds h c hc
    unfold Nat.toDigitsCore at hc
    have hds : ∀ c ∈ Nat.digitChar (n % base) :: ds, c ≠ Char.ofNat 0 := by
      intro x hx
      rcases List.mem_cons.mp hx with hx | hx
      · rw [hx]
        exact digitChar_ne_nul _
      · exact h x hx
    simp only at hc
    split at hc
    · exact hds c hc
    · exact ih _ _ hds c hc

theorem repr_no_nul (n : Nat) : ∀ c ∈ (Nat.repr n).data, c ≠ Char.ofNat 0 := by
  intro c hc
  exact toDigitsCore_no_nul 10 _ _ [] (by simp) c hc

theorem stdutils.itos_no_nul (val : Int) : ∀ c ∈ (stdutils.itos val).data, c ≠ Char.ofNat 0 := by
  intro c hc
  unfold stdutils.itos at hc
  split at hc
  · rw [String.data_append, List.mem_append] at hc
    rcases hc with hc | hc
    · have : c = '-' := by simpa using hc
      rw [this]
      decide
    · exact repr_no_nul _ c hc
  · exact repr_no_nul _ c hc

theorem sgr_sequence_no_nul (A B F : Nat) :
    ∀ c ∈ (sgr_sequence A B F).data, c ≠ Char.ofNat 0 := by
  intro c hc
  unfold sgr_sequence at hc
  simp only [String.data_append, List.mem_append] at hc
  rcases hc with (((hc | hc) | hc) | hc) | hc
  · have : c = Char.ofNat 27 ∨ c = '[' := by simpa using hc
    rcases this with h | h <;> rw [h] <;> decide
  · exact stdutils.itos_no_nul _ c hc
  · split at hc
    · rw [String.data_append, List.mem_append] at hc
      rcases hc with hc | hc
      · have : c = ';' := by simpa using hc
        rw [this]
        decide
      · exact stdutils.itos_no_nul _ c hc
    · simp at hc
  · split at hc
    · rw [String.data_append, List.mem_append] at hc
      rcases hc with hc | hc
      · have : c = ';' := by simpa using hc
        rw [this]
        decide
      · exact stdutils.itos_no_nul _ c hc
    · simp at hc
  · have : c = 'm' := by simpa using hc
    rw [this]
    decide

theorem c_str_sgr_sequence (A B F : Nat) : c_str (sgr_sequence A B F) = sgr_sequence A B F :=
  c_str_of_no_nul _ (sgr_sequence_no_nul A B F)

namespace iochannel

theorem apply_attributes_dirty (ch : iochannel) (hd : ch.dirty_attributes = true) :
    ch.apply_attributes
      = (true, { ch with
          format := sgr_sequence ch.ta ch.bg ch.fg, dirty_attributes := false,
          emitted := (ch.ta, ch.bg, ch.fg) }) := by
  unfold apply_attributes sgr_sequence
  rw [if_pos hd]
  by_cases hb : ch.bg > 0 <;> by_cases hf : ch.fg > 0 <;>
    simp [hb, hf, String.append_assoc]

theorem apply_attributes_clean (ch : iochannel) (hd : ch.dirty_attributes = false) :
    ch.apply_attributes = (false, ch) := by
  unfold apply_attributes
  simp [hd]

theorem inject_clean (ch : iochannel) (str : String) (tag : String → Piece)
    (hd : ch.dirty_attributes = false) :
    ch.inject str false tag = ch.append str tag := by
  rw [inject]
  simp only [Bool.false_eq_true, ↓reduceIte]
  split
  · rename_i ch1 h
    rw [apply_attributes_clean ch hd] at h
    simp at h
  · rename_i ch1 h
    rw [apply_attributes_clean ch hd] at h
    simp only [Prod.mk.injEq, true_and] at h
    rw [← h]

theorem inject_dirty (ch : iochannel) (str : String) (tag : String → Piece)
    (hd : ch.dirty_attributes = true) :
    ch.inject str false tag =
      (({ ch with
          format := sgr_sequence ch.ta ch.bg ch.fg, dirty_attributes := false,
          emitted := (ch.ta, ch.bg, ch.fg) }
        : iochannel).append (sgr_sequence ch.ta ch.bg ch.fg) (fun t => Piece.sgr t true)).append
          str tag := by
  rw [inject]
  simp only [Bool.false_eq_true, ↓reduceIte]
  split
  · rename_i ch1 h
    rw [apply_attributes_dirty ch hd] at h
    simp only [Prod.mk.injEq, true_and] at h
    subst h
    rw [inject_clean _ _ _ rfl, hd]
    simp only [c_str_sgr_sequence]
  · rename_i ch1 h
    rw [apply_attributes_dirty ch hd] at h
    simp at h

theorem transmit_events (ch : iochannel) (keep : Bool) (hmsg : ch.msg ≠ "") :
    (ch.transmit keep).2 = ch.transmit_verbosity ++ ch.transmit_category
      ++ [Event.signal_all ch.msg ch.vrb ch.cat] ++ ch.transmit_echo := by
  simp [transmit, hmsg]

theorem transmit_state (ch : iochannel) (keep : Bool) (hmsg : ch.msg ≠ "") :
    (ch.transmit keep).1 = (if keep then ch else ch.reset_flags).clear_msg := by
  cases keep <;> simp [transmit, hmsg]

theorem transmit_empty (ch : iochannel) (keep : Bool) (hmsg : ch.msg = "") :
    ch.transmit keep = (ch, []) := by
  simp [transmit, hmsg]

theorem transmit_echo_not_signal (ch : iochannel) :
    ∀ e ∈ ch.transmit_echo, e.is_signal_v = false ∧ e.is_signal_c = false ∧
      e.is_signal_all = false ∧ e.echoed = some (c_str ch.msg) := by
  intro e he
  unfold transmit_echo at he
  split at he
  · split at he
    · split at he <;> simp at he <;> subst he <;> simp [Event.is_signal_v, Event.is_signal_c,
        Event.is_signal_all, Event.echoed]
    · simp at he
  · simp at he

theorem signal_v_mem_transmit_verbosity (ch : iochannel) (L : IOFormatVerbosity) (m : String)
    (c : IOFormatCategory) :
    Event.signal_v L m c ∈ ch.transmit_verbosity ↔ (ch.vrb ≤ L ∧ m = ch.msg ∧ c = ch.cat) := by
  unfold transmit_verbosity
  cases hv : ch.vrb <;> cases L <;>
    simp [IOFormatVerbosity.le_def, IOFormatVerbosity.toNat]

theorem signal_v_mem_transmit (ch : iochannel) (keep : Bool) (hmsg : ch.msg ≠ "")
    (L : IOFormatVerbosity) (m : String) (c : IOFormatCategory) :
    Event.signal_v L m c ∈ (ch.transmit keep).2 ↔ (ch.vrb ≤ L ∧ m = ch.msg ∧ c = ch.cat) := by
  rw [transmit_events ch keep hmsg]
  simp only [List.mem_append, List.mem_singleton, signal_v_mem_transmit_verbosity]
  constructor
  · rintro (((h | h) | h) | h)
    · exact h
    · unfold transmit_category at h
      split at h <;> simp at h
    · simp at h
    · have := (transmit_echo_not_signal ch _ h).1
      simp [Event.is_signal_v] at this
  · intro h
    exact Or.inl (Or.inl (Or.inl h))

theorem transmit_verbosity_shape (ch : iochannel) :
    ∀ e ∈ ch.transmit_verbosity, ∃ L, e = Event.signal_v L ch.msg ch.cat := by
  intro e he
  unfold transmit_verbosity at he
  cases hv : ch.vrb <;> simp only [hv, List.mem_cons, List.mem_singleton, List.not_mem_nil,
    or_false] at he
  · rcases he with h | h | h | h <;> exact ⟨_, h⟩
  · rcases he with h | h | h <;> exact ⟨_, h⟩
  · rcases he with h | h <;> exact ⟨_, h⟩
  · exact ⟨_, he⟩

theorem transmit_category_shape (ch : iochannel) :
    ch.transmit_category
      = if ch.cat = .cat_all then [] else [Event.signal_c ch.cat ch.msg ch.vrb] := by
  unfold transmit_category
  cases hc : ch.cat <;> simp

theorem filter_signal_c_verbosity (ch : iochannel) :
    ch.transmit_verbosity.filter Event.is_signal_c = [] := by
  rw [List.filter_eq_nil_iff]
  intro e he
  obtain ⟨L, rfl⟩ := transmit_verbosity_shape ch e he
  simp [Event.is_signal_c]

theorem filter_signal_all_verbosity (ch : iochannel) :
    ch.transmit_verbosity.filter Event.is_signal_all = [] := by
  rw [List.filter_eq_nil_iff]
  intro e he
  obtain ⟨L, rfl⟩ := transmit_verbosity_shape ch e he
  simp [Event.is_signal_all]

theorem filterMap_echoed_verbosity (ch : iochannel) :
    ch.transmit_verbosity.filterMap Event.echoed = [] := by
  rw [List.filterMap_eq_nil_iff]
  intro e he
  obtain ⟨L, rfl⟩ := transmit_verbosity_shape ch e he
  simp [Event.echoed]

theorem filter_signal_c_echo (ch : iochannel) :
    ch.transmit_echo.filter Event.is_signal_c = [] := by
  rw [List.filter_eq_nil_iff]
  intro e he
  simp [(transmit_echo_not_signal ch e he).2.1]

theorem filter_signal_all_echo (ch : iochannel) :
    ch.transmit_echo.filter Event.is_signal_all = [] := by
  rw [List.filter_eq_nil_iff]
  intro e he
  simp [(transmit_echo_not_signal ch e he).2.2.1]

theorem filterMap_echoed_echo (ch : iochannel) :
    ch.transmit_echo.filterMap Event.echoed
      = if ch.echo_wanted then [c_str ch.msg] else [] := by
  unfold transmit_echo
  by_cases hw : ch.echo_wanted
  · rw [if_pos hw]
    obtain ⟨hm, hv, hc⟩ := hw
    have h1 : (ch.echomode != .echo_none) = true := by simpa using hm
    have h2 : (decide (ch.vrb ≤ ch.echovrb)
        && (ch.cat == ch.echocat || ch.echocat == .cat_all)) = true := by
      simpa [hv] using hc
    rw [if_pos h1, if_pos h2]
    split
    · simp [Event.echoed]
    · simp [Event.echoed]
    · rename_i hn
      exact absurd hn hm
  · rw [if_neg hw]
    split
    · rename_i h1
      split
      · rename_i h2
        exfalso
        apply hw
        simp only [Bool.and_eq_true, decide_eq_true_eq, Bool.or_eq_true, beq_iff_eq] at h2
        exact ⟨by simpa using h1, h2.1, h2.2⟩
      · rfl
    · rfl

end iochannel

/-! ## Dispatch on transmit -/

/-- C1: for a non-empty message buffer and every verbosity level L, if the
current verbosity is at most L then transmit invokes the verbosity-axis
subscriber set of level L with the message (and the current category). -/
theorem transmit_invokes_level_at_or_above (ch : iochannel) (keep : Bool)
    (L : IOFormatVerbosity) (hmsg : ch.msg ≠ "") (hL : ch.vrb ≤ L) :
    Event.signal_v L ch.msg ch.cat ∈ (ch.transmit keep).2 :=
  (iochannel.signal_v_mem_transmit ch keep hmsg L ch.msg ch.cat).2 ⟨hL, rfl, rfl⟩

theorem transmit_invokes_level_at_or_above_witness :
    Event.signal_v .vrb_chatty "x" .cat_normal
      ∈ (({ iochannel.sample with msg := "x" } : iochannel).transmit false).2 :=
  transmit_invokes_level_at_or_above { iochannel.sample with msg := "x" } false .vrb_chatty
    (by decide) (by decide)

/-- C2 as stated fails: with current verbosity normal, transmit does not
invoke the set of the lower level quiet, and it does invoke the sets of the
higher levels chatty and tmi. -/
theorem transmit_lower_levels_refuted :
    ¬ (∀ L : IOFormatVerbosity,
        (∃ m c, Event.signal_v L m c
          ∈ (({ iochannel.sample with msg := "x" } : iochannel).transmit false).2)
        ↔ L ≤ IOFormatVerbosity.vrb_normal) := by
  intro h
  have hq := (h .vrb_quiet).2 (by decide)
  obtain ⟨m, c, hmem⟩ := hq
  rw [iochannel.signal_v_mem_transmit _ _ (by decide)] at hmem
  exact absurd hmem.1 (by decide)

/-- C2, amended: for a non-empty message buffer with current verbosity V, the
verbosity-axis subscriber sets that transmit invokes are exactly the set of
level V and the sets of every level higher than V, each with the message and
the current category. -/
theorem transmit_invokes_exactly_levels_above (ch : iochannel) (keep : Bool)
    (hmsg : ch.msg ≠ "") (L : IOFormatVerbosity) (m : String) (c : IOFormatCategory) :
    Event.signal_v L m c ∈ (ch.transmit keep).2 ↔ (ch.vrb ≤ L ∧ m = ch.msg ∧ c = ch.cat) :=
  iochannel.signal_v_mem_transmit ch keep hmsg L m c

theorem transmit_invokes_exactly_levels_above_witness :
    Event.signal_v .vrb_quiet "x" .cat_normal
        ∈ (({ iochannel.sample with msg := "x", vrb := .vrb_quiet } : iochannel).transmit true).2
      ↔ (IOFormatVerbosity.vrb_quiet ≤ IOFormatVerbosity.vrb_quiet ∧ "x" = "x" ∧
          IOFormatCategory.cat_normal = IOFormatCategory.cat_normal) :=
  transmit_invokes_exactly_levels_above
    { iochannel.sample with msg := "x", vrb := .vrb_quiet } true (by decide) .vrb_quiet "x"
    .cat_normal

/-- C3: for a non-empty message buffer, the category-axis invocations of
transmit are exactly one invocation of the current category's set (with the
message and the current verbosity), or none at all when the current category
is `all`; and the "all" channel is invoked exactly once, with the message. -/
theorem transmit_category_axis (ch : iochannel) (keep : Bool) (hmsg : ch.msg ≠ "") :
    (ch.transmit keep).2.filter Event.is_signal_c
        = (if ch.cat = .cat_all then [] else [Event.signal_c ch.cat ch.msg ch.vrb]) ∧
      (ch.transmit keep).2.filter Event.is_signal_all
        = [Event.signal_all ch.msg ch.vrb ch.cat] := by
  rw [iochannel.transmit_events ch keep hmsg]
  simp only [List.filter_append, iochannel.filter_signal_c_verbosity,
    iochannel.filter_signal_all_verbosity, iochannel.filter_signal_c_echo,
    iochannel.filter_signal_all_echo, iochannel.transmit_category_shape]
  constructor
  · by_cases hc : ch.cat = .cat_all <;> simp [hc, Event.is_signal_c]
  · by_cases hc : ch.cat = .cat_all <;> simp [hc, Event.is_signal_all]

theorem transmit_category_axis_witness :
    (({ iochannel.sample with msg := "x", cat := .cat_debug } : iochannel).transmit
          false).2.filter Event.is_signal_c
        = [Event.signal_c .cat_debug "x" .vrb_normal] ∧
      (({ iochannel.sample with msg := "x", cat := .cat_debug } : iochannel).transmit
          false).2.filter Event.is_signal_all
        = [Event.signal_all "x" .vrb_normal .cat_debug] :=
  transmit_category_axis { iochannel.sample with msg := "x", cat := .cat_debug } false
    (by decide)

/-- C4 as stated fails: after the characters `a`, NUL and `b` the buffer is
"a", NUL, "b"; the echo condition holds, but `printf("%s", msg.c_str())`
writes only "a", not the message buffer. -/
theorem echo_stops_at_nul :
    iochannel.sample_nul.msg = "a\x00b" ∧
    ¬ ((iochannel.sample_nul.transmit false).2.filterMap Event.echoed
        = if iochannel.sample_nul.echo_wanted then [iochannel.sample_nul.msg] else []) := by
  have hm : iochannel.sample_nul.msg = "a\x00b" := by decide!
  have he : (iochannel.sample_nul.transmit false).2.filterMap Event.echoed = ["a"] := by
    decide!
  have hw : iochannel.sample_nul.echo_wanted := by decide!
  refine ⟨hm, ?_⟩
  rw [he, if_pos hw, hm]
  decide

/-- C4, amended: for a non-empty message buffer, transmit writes to the process
output exactly when echo mode is not none, the current verbosity is at most
the echo verbosity and the current category is the echo category or the echo
category is `all`; what it writes, once, is the message buffer up to its first
NUL byte (the whole buffer when it holds none, nothing when it starts with
one); the test reads the verbosity and category of the state before transmit,
whether or not the flags are reset afterwards. -/
theorem transmit_echo_condition (ch : iochannel) (keep : Bool) (hmsg : ch.msg ≠ "") :
    (ch.transmit keep).2.filterMap Event.echoed
        = (if ch.echo_wanted then [c_str ch.msg] else []) ∧
      ((∀ c ∈ ch.msg.data, c ≠ Char.ofNat 0) → c_str ch.msg = ch.msg) := by
  refine ⟨?_, c_str_of_no_nul ch.msg⟩
  rw [iochannel.transmit_events ch keep hmsg]
  simp only [List.filterMap_append, iochannel.filterMap_echoed_verbosity,
    iochannel.filterMap_echoed_echo, iochannel.transmit_category_shape]
  by_cases hc : ch.cat = .cat_all <;> simp [hc, Event.echoed]

theorem transmit_echo_condition_witness :
    ((((({ iochannel.sample with msg := "x" } : iochannel).configure_echo .echo_printf
        .vrb_normal .cat_all).push_verbosity .vrb_quiet).transmit false).2.filterMap
          Event.echoed) = ["x"] :=
  (transmit_echo_condition
    ((({ iochannel.sample with msg := "x" } : iochannel).configure_echo .echo_printf
      .vrb_normal .cat_all).push_verbosity .vrb_quiet) false (by decide)).1

/-! ## What inject, transmit and the resets change -/

namespace iochannel

theorem inject_same_formatting (ch : iochannel) (str : String) (tag : String → Piece) :
    ch.same_formatting (ch.inject str false tag) := by
  cases hd : ch.dirty_attributes
  · rw [inject_clean ch str tag hd]
    simp [same_formatting, append]
  · rw [inject_dirty ch str tag hd]
    simp [same_formatting, append]

theorem inject_newline_same_formatting (ch : iochannel) :
    ch.same_formatting ch.inject_newline := by
  unfold inject_newline
  split <;> exact inject_same_formatting ch _ _

theorem same_formatting_refl (ch : iochannel) : ch.same_formatting ch := by
  simp [same_formatting]

theorem same_formatting_trans {a b c : iochannel} (h1 : a.same_formatting b)
    (h2 : b.same_formatting c) : a.same_formatting c := by
  unfold same_formatting at *
  obtain ⟨a1, a2, a3, a4, a5, a6, a7, a8, a9, a10, a11, a12, a13⟩ := h1
  obtain ⟨b1, b2, b3, b4, b5, b6, b7, b8, b9, b10, b11, b12, b13⟩ := h2
  exact ⟨a1.trans b1, a2.trans b2, a3.trans b3, a4.trans b4, a5.trans b5, a6.trans b6,
    a7.trans b7, a8.trans b8, a9.trans b9, a10.trans b10, a11.trans b11, a12.trans b12,
    a13.trans b13⟩

theorem transmit_keep_same_formatting (ch : iochannel) :
    ch.same_formatting (ch.transmit true).1 := by
  unfold transmit
  split <;> simp [same_formatting, clear_msg]

theorem reset_flags_transient_default (ch : iochannel) :
    ch.reset_flags.transient_default := by
  unfold reset_flags reset_attributes transient_default
  split
  · simp
  · rename_i h
    simp only [gt_iff_lt, Bool.or_eq_true, decide_eq_true_eq, not_or, not_lt,
      Nat.le_zero_eq] at h
    simp [h.1.1, h.1.2, h.2, ta_none, fg_none, bg_none]

theorem transmit_msg_empty (ch : iochannel) (keep : Bool) : (ch.transmit keep).1.msg = "" := by
  unfold transmit
  split
  · simp [clear_msg]
  · rename_i h
    simpa using h

theorem length_sgr_sequence_pos (A B F : Nat) : 0 < (sgr_sequence A B F).length := by
  unfold sgr_sequence
  simp only [String.length_append]
  have : ("m" : String).length = 1 := by decide
  omega

theorem inject_msg (ch : iochannel) (str : String) (tag : String → Piece) :
    (ch.inject str false tag).msg
      = if ch.dirty_attributes then ch.msg ++ sgr_sequence ch.ta ch.bg ch.fg ++ str
        else ch.msg ++ str := by
  cases hd : ch.dirty_attributes
  · rw [inject_clean ch str tag hd]
    simp [append]
  · rw [inject_dirty ch str tag hd]
    simp [append]

theorem inject_dirty_attributes (ch : iochannel) (str : String) (tag : String → Piece) :
    (ch.inject str false tag).dirty_attributes = false := by
  cases hd : ch.dirty_attributes
  · rw [inject_clean ch str tag hd]
    simpa [append] using hd
  · rw [inject_dirty ch str tag hd]
    simp [append]

theorem ne_empty_of_length_pos {s : String} (h : 0 < s.length) : s ≠ "" := by
  intro he
  subst he
  simp at h

theorem inject_msg_ne_empty (ch : iochannel) (str : String) (tag : String → Piece)
    (h : ch.msg ≠ "" ∨ str ≠ "" ∨ ch.dirty_attributes = true) :
    (ch.inject str false tag).msg ≠ "" := by
  apply ne_empty_of_length_pos
  rw [inject_msg]
  have hlen : ∀ s : String, s ≠ "" → 0 < s.length := by
    intro s hs
    rcases Nat.eq_zero_or_pos s.length with h0 | h0
    · exfalso
      apply hs
      apply String.ext
      exact List.length_eq_zero.mp h0
    · exact h0
  have hs := length_sgr_sequence_pos ch.ta ch.bg ch.fg
  split
  · simp only [String.length_append]
    omega
  · rename_i hd
    simp only [String.length_append]
    rcases h with h | h | h
    · have := hlen _ h
      omega
    · have := hlen _ h
      omega
    · exact absurd h hd

theorem can_parse_reset_attributes (ch : iochannel) :
    ch.reset_attributes.can_parse = ch.can_parse := by
  unfold reset_attributes
  split <;> rfl

theorem msg_reset_attributes (ch : iochannel) : ch.reset_attributes.msg = ch.msg := by
  unfold reset_attributes
  split <;> rfl

theorem dirty_reset_attributes (ch : iochannel)
    (h : ch.dirty_attributes = true ∨ 0 < ch.ta ∨ 0 < ch.fg ∨ 0 < ch.bg) :
    ch.reset_attributes.dirty_attributes = true := by
  unfold reset_attributes
  split
  · rfl
  · rename_i hn
    simp only [gt_iff_lt, Bool.or_eq_true, decide_eq_true_eq, not_or, not_lt,
      Nat.le_zero_eq] at hn
    rcases h with h | h | h | h
    · exact h
    · omega
    · omega
    · omega

theorem transient_default_clear_msg (ch : iochannel) (h : ch.transient_default) :
    ch.clear_msg.transient_default := h

theorem transmit_delivered (ch : iochannel) (keep : Bool) :
    ∀ e ∈ (ch.transmit keep).2, ∀ m, e.delivered = some m → m = ch.msg := by
  intro e he m hm
  unfold transmit at he
  split at he
  · simp only [List.append_assoc, List.mem_append, List.mem_singleton] at he
    rcases he with h | h | h | h
    · obtain ⟨L, rfl⟩ := transmit_verbosity_shape ch e h
      simpa [Event.delivered] using hm.symm
    · rw [transmit_category_shape] at h
      split at h
      · simp at h
      · simp only [List.mem_singleton] at h
        subst h
        simpa [Event.delivered] using hm.symm
    · subst h
      simpa [Event.delivered] using hm.symm
    · have := (transmit_echo_not_signal ch e h).2.2.2
      cases e <;> simp [Event.delivered, Event.echoed] at hm this
  · simp at he

theorem sgr_sequence_reset : sgr_sequence 0 0 0 = "\x1b[0m" := by decide

theorem sgr_sequence_foreground (f : Nat) (hf : 0 < f) :
    sgr_sequence 0 0 f = "\x1b[0;" ++ stdutils.itos f ++ "m" := by
  unfold sgr_sequence
  have h0 : stdutils.itos ((0 : Nat) : Int) = "0" := by decide
  rw [h0, if_pos hf]
  apply String.ext
  simp [String.data_append]

end iochannel

/-! ## Flush markers and the filter -/

/-- C5 as stated fails: after a base token and `mute(quiet)` the filter
rejects the (normal, normal) message, the buffer is empty and nothing is
pending, so `end` transmits nothing and resets nothing: the base is still
hexadecimal. -/
theorem end_marker_reset_refuted :
    ¬ ((((iochannel.sample.push_base 16).shutup_vrb .vrb_quiet).push_special .io_end).1.msg = ""
      ∧ (((iochannel.sample.push_base 16).shutup_vrb .vrb_quiet).push_special
          .io_end).1.transient_default) := by
  have hb : (((iochannel.sample.push_base 16).shutup_vrb .vrb_quiet).push_special
      .io_end).1.base = 16 := by
    have hc : ((iochannel.sample.push_base 16).shutup_vrb .vrb_quiet).reset_attributes
        = (iochannel.sample.push_base 16).shutup_vrb .vrb_quiet := by decide
    have hi : ((iochannel.sample.push_base 16).shutup_vrb .vrb_quiet).inject_newline.msg = "" := by
      unfold iochannel.inject_newline
      rw [if_neg (by decide), iochannel.inject_clean _ _ _ (by decide)]
      decide
    simp only [iochannel.push_special, hc]
    rw [iochannel.transmit_empty _ _ hi]
    exact (iochannel.inject_newline_same_formatting _).1.symm
  intro h
  have := h.2.1
  rw [hb] at this
  exact absurd this (by decide)

/-- C5, amended: for every channel state the message buffer is empty after the
flush marker `end`; and every transient formatting field (base, numeral case,
scientific mode, precision, char handling, pointer handling, read size,
memory-dump mask, foreground, background, attributes, current verbosity and
category) has its default after `end` whenever the buffer is non-empty when
transmit runs, that is when the filter accepts, or the buffer was already
non-empty, or an attribute change is pending or an attribute is set. -/
theorem end_marker_resets (ch : iochannel) :
    (ch.push_special .io_end).1.msg = "" ∧
      ((ch.can_parse = true ∨ ch.msg ≠ "" ∨ ch.dirty_attributes = true ∨ 0 < ch.ta ∨
          0 < ch.fg ∨ 0 < ch.bg) →
        (ch.push_special .io_end).1.transient_default) := by
  refine ⟨iochannel.transmit_msg_empty _ _, ?_⟩
  intro h
  have hne : ch.reset_attributes.inject_newline.msg ≠ "" := by
    unfold iochannel.inject_newline
    rw [iochannel.can_parse_reset_attributes]
    by_cases hp : ch.can_parse = true
    · rw [if_pos hp]
      exact iochannel.inject_msg_ne_empty _ _ _ (Or.inr (Or.inl (by decide)))
    · rw [if_neg hp]
      rcases h with h | h | h
      · exact absurd h hp
      · exact iochannel.inject_msg_ne_empty _ _ _
          (Or.inl (by rw [iochannel.msg_reset_attributes]; exact h))
      · exact iochannel.inject_msg_ne_empty _ _ _
          (Or.inr (Or.inr (iochannel.dirty_reset_attributes ch h)))
  show (ch.reset_attributes.inject_newline.transmit false).1.transient_default
  rw [iochannel.transmit_state _ _ hne]
  exact iochannel.transient_default_clear_msg _ (iochannel.reset_flags_transient_default _)

theorem end_marker_resets_witness :
    ((iochannel.sample.push_base 16).push_special .io_end).1.msg = "" ∧
      ((iochannel.sample.push_base 16).push_special .io_end).1.transient_default :=
  ⟨(end_marker_resets (iochannel.sample.push_base 16)).1,
    (end_marker_resets (iochannel.sample.push_base 16)).2 (Or.inl (by decide))⟩

/-- C6: in a state whose filter rejects the current (verbosity, category),
every append and every modifier token other than a verbosity token, a category
token and a flush marker leaves the whole channel state unchanged (message
buffer and dirty-attributes flag included) and has no outside effect. -/
theorem rejected_push_is_noop (U : stdutils) (ch : iochannel) (t : Token)
    (hrej : ch.can_parse = false) (ht : t.gated = true) :
    ch.push U t = (ch, []) := by
  cases t <;>
    first
      | (simp [Token.gated] at ht; done)
      | simp [iochannel.push, iochannel.push_bool, iochannel.push_bool_ptr, iochannel.push_int,
          iochannel.push_int_ptr, iochannel.push_long_int, iochannel.push_long_int_ptr,
          iochannel.push_unsigned_int, iochannel.push_unsigned_int_ptr,
          iochannel.push_unsigned_long_int, iochannel.push_unsigned_long_int_ptr,
          iochannel.push_float, iochannel.push_float_ptr, iochannel.push_double,
          iochannel.push_double_ptr, iochannel.push_void_ptr, iochannel.push_char,
          iochannel.push_char_ptr, iochannel.push_string, iochannel.push_base,
          iochannel.push_charval, iochannel.push_set_precision, iochannel.push_sci,
          iochannel.push_numcase, iochannel.push_ptr, iochannel.push_memsep, iochannel.push_bg,
          iochannel.push_fg, iochannel.push_ta, iochannel.push_read_size, hrej]

theorem rejected_push_is_noop_witness :
    (iochannel.sample.shutup_vrb .vrb_quiet).push stdutils.reference (Token.fg 31)
      = (iochannel.sample.shutup_vrb .vrb_quiet, []) :=
  rejected_push_is_noop stdutils.reference (iochannel.sample.shutup_vrb .vrb_quiet)
    (Token.fg 31) (by decide) (by decide)

/-! ## Lazy attribute emission -/

/-- C7 as stated fails: the `std::string` overload injects `rhs.c_str()`, so
appending the text "a", NUL, "b" to an empty buffer with the flag clear leaves
"a" in the buffer, not buffer ++ s. -/
theorem append_text_stops_at_nul :
    iochannel.sample.can_parse = true ∧ iochannel.sample.dirty_attributes = false ∧
    ¬ ((iochannel.sample.push_string "a\x00b").msg = iochannel.sample.msg ++ "a\x00b") := by
  have hm : (iochannel.sample.push_string "a\x00b").msg = "a" := by decide!
  refine ⟨by decide, by decide, ?_⟩
  rw [hm]
  decide

/-- C7, amended: when the filter accepts, appending a text `s` with the dirty
flag set turns the buffer into
`buffer ++ ESC [ A (;B if B > 0) (;F if F > 0) m ++ t` (A, B, F the decimal
codes of text attribute, background and foreground; `t` is `s` up to its first
NUL byte, all of `s` when it holds none), records the escape sequence before
`t`, and clears the flag; with the flag clear the buffer becomes `buffer ++ t`,
with no escape sequence. -/
theorem append_text_emits_pending_sgr (ch : iochannel) (s : String)
    (hp : ch.can_parse = true) :
    (ch.dirty_attributes = true →
      (ch.push_string s).msg = ch.msg ++ sgr_sequence ch.ta ch.bg ch.fg ++ c_str s ∧
      (ch.push_string s).pieces
        = ch.pieces
          ++ [Piece.sgr (sgr_sequence ch.ta ch.bg ch.fg) true, Piece.content (c_str s)] ∧
      (ch.push_string s).dirty_attributes = false) ∧
    (ch.dirty_attributes = false →
      (ch.push_string s).msg = ch.msg ++ c_str s ∧
      (ch.push_string s).pieces = ch.pieces ++ [Piece.content (c_str s)] ∧
      (ch.push_string s).dirty_attributes = false) ∧
    ((∀ c ∈ s.data, c ≠ Char.ofNat 0) → c_str s = s) := by
  unfold iochannel.push_string
  simp only [hp, Bool.not_true, Bool.false_eq_true, ↓reduceIte]
  refine ⟨?_, ?_, c_str_of_no_nul s⟩
  · intro hd
    rw [iochannel.inject_dirty ch _ _ hd]
    simp [iochannel.append]
  · intro hd
    rw [iochannel.inject_clean ch _ _ hd]
    simp [iochannel.append, hd]

theorem append_text_emits_pending_sgr_witness :
    ((iochannel.sample.push_fg 31).push_string "err").msg
        = (iochannel.sample.push_fg 31).msg ++ sgr_sequence 0 0 31 ++ "err" ∧
      ((iochannel.sample.push_fg 31).push_string "err").pieces
        = [Piece.sgr (sgr_sequence 0 0 31) true, Piece.content "err"] ∧
      ((iochannel.sample.push_fg 31).push_string "err").dirty_attributes = false :=
  (append_text_emits_pending_sgr (iochannel.sample.push_fg 31) "err" (by decide)).1 (by decide)

/-- C8 as stated fails: red, then the text "a", NUL, "b", then `end` deliver
"a" between the two escape sequences, not the whole text, because the
`std::string` overload injects `rhs.c_str()`. -/
theorem coloured_message_stops_at_nul :
    ¬ (∀ e ∈ (iochannel.sample.run stdutils.reference
          [Token.fg 31, Token.string "a\x00b", Token.special .io_end]).2,
        ∀ m, e.delivered = some m → m = "\x1b[0;31ma\x00b\x1b[0m\n") := by
  intro h
  have hmem : Event.signal_all "\x1b[0;31ma\x1b[0m\n" .vrb_normal .cat_normal
      ∈ (iochannel.sample.run stdutils.reference
          [Token.fg 31, Token.string "a\x00b", Token.special .io_end]).2 := by decide!
  exact absurd (h _ hmem "\x1b[0;31ma\x1b[0m\n" rfl) (by decide)

/-- C8, amended: from a channel with empty buffer, attributes none, dirty flag
clear and the filter accepting, pushing a foreground colour of code `f > 0`,
then the text `s`, then the flush marker `end` invokes the "all" channel with
`ESC[0;f m ++ t ++ ESC[0m ++ "\n"`, where `t` is `s` up to its first NUL byte
(all of `s` when it holds none), and every subscriber invoked receives exactly
that message. -/
theorem coloured_message_delivered (U : stdutils) (ch : iochannel) (f : Nat) (s : String)
    (hmsg : ch.msg = "") (hta : ch.ta = ta_none) (_hfg : ch.fg = fg_none)
    (hbg : ch.bg = bg_none) (_hd : ch.dirty_attributes = false) (hp : ch.can_parse = true)
    (hf : 0 < f) :
    Event.signal_all ("\x1b[0;" ++ stdutils.itos f ++ "m" ++ c_str s ++ "\x1b[0m" ++ "\n")
        ch.vrb ch.cat
      ∈ (ch.run U [Token.fg f, Token.string s, Token.special .io_end]).2 ∧
    ∀ e ∈ (ch.run U [Token.fg f, Token.string s, Token.special .io_end]).2,
      ∀ m, e.delivered = some m →
        m = "\x1b[0;" ++ stdutils.itos f ++ "m" ++ c_str s ++ "\x1b[0m" ++ "\n" := by
  have hrun : (ch.run U [Token.fg f, Token.string s, Token.special .io_end]).2
      = ((((ch.push_fg f).push_string s).reset_attributes.inject_newline).transmit false).2 := by
    simp [iochannel.run, iochannel.push, iochannel.push_special]
  have h1 : ch.push_fg f = { ch with fg := f, dirty_attributes := true } := by
    simp [iochannel.push_fg, hp]
  have hp1 : (ch.push_fg f).can_parse = true := by rw [h1]; exact hp
  have h2 : (ch.push_fg f).push_string s
      = (({ ch with
            fg := f, format := sgr_sequence 0 0 f, dirty_attributes := false,
            emitted := (0, 0, f) }
          : iochannel).append (sgr_sequence 0 0 f) (fun t => Piece.sgr t true)).append
            (c_str s) Piece.content := by
    unfold iochannel.push_string
    simp only [hp1, Bool.not_true, Bool.false_eq_true, ↓reduceIte]
    rw [iochannel.inject_dirty _ _ _ (by rw [h1]), h1]
    simp [hta, hbg, ta_none, bg_none]
  have h3 : ((ch.push_fg f).push_string s).reset_attributes
      = { (ch.push_fg f).push_string s with
          ta := ta_none, fg := fg_none, bg := bg_none, dirty_attributes := true } := by
    unfold iochannel.reset_attributes
    rw [if_pos]
    rw [h2]
    simp [iochannel.append, hf]
  have hmsg4 : (((ch.push_fg f).push_string s).reset_attributes.inject_newline).msg
      = "\x1b[0;" ++ stdutils.itos f ++ "m" ++ c_str s ++ "\x1b[0m" ++ "\n" := by
    unfold iochannel.inject_newline
    rw [iochannel.can_parse_reset_attributes]
    have hp2 : ((ch.push_fg f).push_string s).can_parse = true := by
      rw [h2]; exact hp
    rw [if_pos hp2, iochannel.inject_msg, h3]
    simp only [↓reduceIte, ta_none, fg_none, bg_none, iochannel.sgr_sequence_reset]
    rw [h2]
    simp [iochannel.append, hmsg, iochannel.sgr_sequence_foreground f hf]
  have hvc : (((ch.push_fg f).push_string s).reset_attributes.inject_newline).vrb = ch.vrb ∧
      (((ch.push_fg f).push_string s).reset_attributes.inject_newline).cat = ch.cat := by
    have a := iochannel.inject_newline_same_formatting
      ((ch.push_fg f).push_string s).reset_attributes
    rw [h3, h2] at a
    rw [h3, h2]
    exact ⟨a.2.2.2.2.2.2.2.2.2.2.2.1.symm, a.2.2.2.2.2.2.2.2.2.2.2.2.symm⟩
  have hne : (((ch.push_fg f).push_string s).reset_attributes.inject_newline).msg ≠ "" := by
    rw [hmsg4]
    apply iochannel.ne_empty_of_length_pos
    have hl : ("\n" : String).length = 1 := by decide
    simp only [String.length_append, hl]
    omega
  rw [hrun]
  constructor
  · rw [iochannel.transmit_events _ _ hne, hmsg4, hvc.1, hvc.2]
    simp
  · intro e he m hm
    rw [← hmsg4]
    exact iochannel.transmit_delivered _ _ e he m hm

theorem coloured_message_delivered_witness :
    Event.signal_all "\x1b[0;31merr\x1b[0m\n" .vrb_normal .cat_normal
      ∈ (iochannel.sample.run stdutils.reference
          [Token.fg 31, Token.string "err", Token.special .io_end]).2 ∧
    ∀ e ∈ (iochannel.sample.run stdutils.reference
          [Token.fg 31, Token.string "err", Token.special .io_end]).2,
      ∀ m, e.delivered = some m → m = "\x1b[0;31merr\x1b[0m\n" :=
  coloured_message_delivered stdutils.reference iochannel.sample 31 "err" (by decide)
    (by decide) (by decide) (by decide) (by decide) (by decide) (by decide)

/-- C10: the flush marker `end-keep` leaves every formatting field unchanged:
base, numeral case, scientific mode, precision, char handling, pointer
handling, read size, memory-dump mask, foreground, background, text attribute,
current verbosity and current category are the same after the marker as
before it. -/
theorem end_keep_keeps_formatting (ch : iochannel) :
    ch.same_formatting (ch.push_special .io_end_keep).1 :=
  iochannel.same_formatting_trans (iochannel.inject_newline_same_formatting ch)
    (iochannel.transmit_keep_same_formatting ch.inject_newline)

/-! ## The SGR discipline over whole runs -/

theorem flatten_append_singleton (ps : List Piece) (p : Piece) :
    flatten (ps ++ [p]) = flatten ps ++ p.text := by
  apply String.ext
  simp [flatten, String.data_join, String.data_append]

theorem visible_append (ps qs : List Piece) : visible (ps ++ qs) = visible ps ++ visible qs := by
  simp [visible]

theorem visible_content_empty : visible [Piece.content ""] = [] := by
  simp [visible, Piece.text]

theorem visible_singleton (p : Piece) (h : p.text ≠ "") : visible [p] = [p] := by
  simp [visible, h]

theorem no_adjacent_sgr_append_content (ps : List Piece) (s : String)
    (h : no_adjacent_sgr ps) : no_adjacent_sgr (ps ++ [Piece.content s]) := by
  unfold no_adjacent_sgr at *
  rw [visible_append]
  by_cases hs : s = ""
  · subst hs
    rw [visible_content_empty, List.append_nil]
    exact h
  · rw [visible_singleton _ (by simpa [Piece.text] using hs), List.chain'_append]
    refine ⟨h, List.chain'_singleton _, ?_⟩
    intro x _ y hy
    simp only [List.head?_cons, Option.mem_def, Option.some.injEq] at hy
    subst hy
    simp [Piece.is_sgr]

theorem sgr_only_when_dirty_append (ps : List Piece) (p : Piece)
    (h : sgr_only_when_dirty ps) (hp : p.built_dirty = true) :
    sgr_only_when_dirty (ps ++ [p]) := by
  intro q hq
  simp only [List.mem_append, List.mem_singleton] at hq
  rcases hq with hq | hq
  · exact h q hq
  · subst hq
    exact hp

namespace iochannel

theorem well_formed_append_content (ch : iochannel) (s : String) (h : ch.well_formed) :
    (ch.append s Piece.content).well_formed := by
  obtain ⟨h1, h2, h3⟩ := h
  refine ⟨?_, ?_, ?_⟩
  · simp [append, flatten_append_singleton, h1, Piece.text]
  · exact sgr_only_when_dirty_append _ _ h2 rfl
  · exact no_adjacent_sgr_append_content _ _ h3

theorem inject_pieces (ch : iochannel) (str : String) :
    (ch.inject str false Piece.content).pieces
      = if ch.dirty_attributes then
          ch.pieces ++ [Piece.sgr (sgr_sequence ch.ta ch.bg ch.fg) true] ++ [Piece.content str]
        else ch.pieces ++ [Piece.content str] := by
  cases hd : ch.dirty_attributes
  · rw [inject_clean ch str _ hd]
    simp [append]
  · rw [inject_dirty ch str _ hd]
    simp [append]

end iochannel

namespace iochannel

end iochannel

namespace iochannel

theorem same_policy_refl (ch : iochannel) : ch.same_policy ch :=
  ⟨rfl, rfl, rfl, rfl, rfl⟩

theorem same_policy_trans {a b c : iochannel} (h1 : a.same_policy b)
    (h2 : b.same_policy c) : a.same_policy c := by
  obtain ⟨a1, a2, a3, a4, a5⟩ := h1
  obtain ⟨b1, b2, b3, b4, b5⟩ := h2
  exact ⟨a1.trans b1, a2.trans b2, a3.trans b3, a4.trans b4, a5.trans b5⟩

theorem inject_same_policy (ch : iochannel) (str : String) (tag : String → Piece) :
    ch.same_policy (ch.inject str false tag) := by
  cases hd : ch.dirty_attributes
  · rw [inject_clean ch str tag hd]
    exact ⟨rfl, rfl, rfl, rfl, rfl⟩
  · rw [inject_dirty ch str tag hd]
    exact ⟨rfl, rfl, rfl, rfl, rfl⟩

theorem inject_char_same_policy (ch : iochannel) (c : Char) :
    ch.same_policy (ch.inject_char c) := by
  unfold inject_char
  cases hd : ch.dirty_attributes
  · rw [apply_attributes_clean ch hd]
    exact ⟨rfl, rfl, rfl, rfl, rfl⟩
  · rw [apply_attributes_dirty ch hd]
    simp only [↓reduceIte]
    have h := inject_same_policy
      ({ ch with
        format := sgr_sequence ch.ta ch.bg ch.fg, dirty_attributes := false,
        emitted := (ch.ta, ch.bg, ch.fg) })
      (sgr_sequence ch.ta ch.bg ch.fg) (fun t => Piece.sgr t true)
    simp only [c_str_sgr_sequence]
    exact h

theorem inject_ptr_same_policy (U : stdutils) (ch : iochannel) (address : Nat)
    (memory : Nat → Nat) (len : Nat) (dump : Bool) :
    ch.same_policy (inject_ptr U ch address memory len dump) := by
  unfold inject_ptr
  cases dump <;> exact inject_same_policy ch _ _

theorem inject_newline_same_policy (ch : iochannel) : ch.same_policy ch.inject_newline := by
  unfold inject_newline
  split <;> exact inject_same_policy ch _ _

theorem reset_attributes_same_policy (ch : iochannel) :
    ch.same_policy ch.reset_attributes := by
  unfold reset_attributes
  split <;> exact ⟨rfl, rfl, rfl, rfl, rfl⟩

theorem reset_flags_same_policy (ch : iochannel) : ch.same_policy ch.reset_flags := by
  unfold reset_flags reset_attributes
  split <;> exact ⟨rfl, rfl, rfl, rfl, rfl⟩

theorem transmit_same_policy (ch : iochannel) (keep : Bool) :
    ch.same_policy (ch.transmit keep).1 := by
  unfold transmit
  split
  · cases keep
    · exact reset_flags_same_policy ch
    · exact ⟨rfl, rfl, rfl, rfl, rfl⟩
  · exact same_policy_refl ch


theorem push_bool_same_policy (ch : iochannel) (rhs : Bool) :
    ch.same_policy (ch.push_bool rhs) := by
  unfold push_bool
  split
  · exact same_policy_refl ch
  · exact inject_same_policy ch _ _

theorem push_int_same_policy (U : stdutils) (ch : iochannel) (rhs : Int) :
    ch.same_policy (ch.push_int U rhs) := by
  unfold push_int
  split
  · exact same_policy_refl ch
  · exact inject_same_policy ch _ _

theorem push_long_int_same_policy (U : stdutils) (ch : iochannel) (rhs : Int) :
    ch.same_policy (ch.push_long_int U rhs) := by
  unfold push_long_int
  split
  · exact same_policy_refl ch
  · exact inject_same_policy ch _ _

theorem push_unsigned_int_same_policy (U : stdutils) (ch : iochannel) (rhs : Nat) :
    ch.same_policy (ch.push_unsigned_int U rhs) := by
  unfold push_unsigned_int
  split
  · exact same_policy_refl ch
  · exact inject_same_policy ch _ _

theorem push_unsigned_long_int_same_policy (U : stdutils) (ch : iochannel) (rhs : Nat) :
    ch.same_policy (ch.push_unsigned_long_int U rhs) := by
  unfold push_unsigned_long_int
  split
  · exact same_policy_refl ch
  · exact inject_same_policy ch _ _

theorem push_double_same_policy (U : stdutils) (ch : iochannel) (rhs : CDouble) :
    ch.same_policy (ch.push_double U rhs) := by
  unfold push_double
  split
  · exact same_policy_refl ch
  · exact inject_same_policy ch _ _

theorem push_float_same_policy (U : stdutils) (ch : iochannel) (rhs : CDouble) :
    ch.same_policy (ch.push_float U rhs) := by
  unfold push_float
  split
  · exact same_policy_refl ch
  · exact push_double_same_policy U ch rhs

theorem push_char_same_policy (U : stdutils) (ch : iochannel) (rhs : Char) :
    ch.same_policy (ch.push_char U rhs) := by
  unfold push_char
  split
  · exact same_policy_refl ch
  · split
    · exact inject_char_same_policy ch rhs
    · exact inject_same_policy ch _ _

theorem push_char_ptr_same_policy (U : stdutils) (ch : iochannel) (rhs : Pointer String) :
    ch.same_policy (ch.push_char_ptr U rhs) := by
  unfold push_char_ptr
  split
  · exact same_policy_refl ch
  · split
    · exact inject_same_policy ch _ _
    · exact inject_ptr_same_policy U ch _ _ _ _
    · exact inject_ptr_same_policy U ch _ _ _ _

theorem push_void_ptr_same_policy (U : stdutils) (ch : iochannel) (rhs : Pointer Unit) :
    ch.same_policy (ch.push_void_ptr U rhs) := by
  unfold push_void_ptr
  split
  · exact same_policy_refl ch
  · split
    · exact push_char_ptr_same_policy U ch _
    · exact inject_ptr_same_policy U ch _ _ _ _
    · exact inject_ptr_same_policy U ch _ _ _ _

theorem push_string_same_policy (ch : iochannel) (rhs : String) :
    ch.same_policy (ch.push_string rhs) := by
  unfold push_string
  split
  · exact same_policy_refl ch
  · exact inject_same_policy ch _ _

theorem push_special_same_policy (ch : iochannel) (rhs : IOSpecial) :
    ch.same_policy (ch.push_special rhs).1 := by
  cases rhs
  · exact same_policy_trans (reset_attributes_same_policy ch)
      (same_policy_trans (inject_newline_same_policy _) (transmit_same_policy _ _))
  · exact same_policy_trans (inject_newline_same_policy _) (transmit_same_policy _ _)
  · exact same_policy_trans (reset_attributes_same_policy ch)
      (same_policy_trans (inject_same_policy _ _ _) (transmit_same_policy _ _))
  · exact same_policy_trans (inject_same_policy _ _ _) (transmit_same_policy _ _)
  · exact same_policy_trans (reset_attributes_same_policy ch) (inject_newline_same_policy _)
  · exact inject_newline_same_policy _

end iochannel

/-! ## The filter and its thresholds -/

/-- C11: every append, every modifier token, every verbosity or category token
and each of the six flush markers (the reset-flags of `end` included) leaves
the filter thresholds (process verbosity, process category mask) and the echo
configuration (echo mode, echo verbosity, echo category) unchanged. -/
theorem push_keeps_policy (U : stdutils) (ch : iochannel) (t : Token) :
    ch.same_policy (ch.push U t).1 := by
  cases t with
  | bool rhs => exact iochannel.push_bool_same_policy ch rhs
  | bool_ptr rhs =>
    simp only [iochannel.push, iochannel.push_bool_ptr]
    split
    · exact iochannel.same_policy_refl ch
    · split
      · exact iochannel.push_bool_same_policy ch _
      · exact iochannel.inject_ptr_same_policy U ch _ _ _ _
      · exact iochannel.inject_ptr_same_policy U ch _ _ _ _
  | int rhs => exact iochannel.push_int_same_policy U ch rhs
  | int_ptr rhs =>
    simp only [iochannel.push, iochannel.push_int_ptr]
    split
    · exact iochannel.same_policy_refl ch
    · split
      · exact iochannel.push_int_same_policy U ch _
      · exact iochannel.inject_ptr_same_policy U ch _ _ _ _
      · exact iochannel.inject_ptr_same_policy U ch _ _ _ _
  | long_int rhs => exact iochannel.push_long_int_same_policy U ch rhs
  | long_int_ptr rhs =>
    simp only [iochannel.push, iochannel.push_long_int_ptr]
    split
    · exact iochannel.same_policy_refl ch
    · split
      · exact iochannel.push_long_int_same_policy U ch _
      · exact iochannel.inject_ptr_same_policy U ch _ _ _ _
      · exact iochannel.inject_ptr_same_policy U ch _ _ _ _
  | unsigned_int rhs => exact iochannel.push_unsigned_int_same_policy U ch rhs
  | unsigned_int_ptr rhs =>
    simp only [iochannel.push, iochannel.push_unsigned_int_ptr]
    split
    · exact iochannel.same_policy_refl ch
    · split
      · exact iochannel.push_unsigned_int_same_policy U ch _
      · exact iochannel.inject_ptr_same_policy U ch _ _ _ _
      · exact iochannel.inject_ptr_same_policy U ch _ _ _ _
  | unsigned_long_int rhs => exact iochannel.push_unsigned_long_int_same_policy U ch rhs
  | unsigned_long_int_ptr rhs =>
    simp only [iochannel.push, iochannel.push_unsigned_long_int_ptr]
    split
    · exact iochannel.same_policy_refl ch
    · split
      · exact iochannel.push_unsigned_long_int_same_policy U ch _
      · exact iochannel.inject_ptr_same_policy U ch _ _ _ _
      · exact iochannel.inject_ptr_same_policy U ch _ _ _ _
  | float rhs => exact iochannel.push_float_same_policy U ch rhs
  | float_ptr rhs =>
    simp only [iochannel.push, iochannel.push_float_ptr]
    split
    · exact iochannel.same_policy_refl ch
    · split
      · exact iochannel.push_float_same_policy U ch _
      · exact iochannel.inject_ptr_same_policy U ch _ _ _ _
      · exact iochannel.inject_ptr_same_policy U ch _ _ _ _
  | double rhs => exact iochannel.push_double_same_policy U ch rhs
  | double_ptr rhs =>
    simp only [iochannel.push, iochannel.push_double_ptr]
    split
    · exact iochannel.same_policy_refl ch
    · split
      · exact iochannel.push_double_same_policy U ch _
      · exact iochannel.inject_ptr_same_policy U ch _ _ _ _
      · exact iochannel.inject_ptr_same_policy U ch _ _ _ _
  | void_ptr rhs => exact iochannel.push_void_ptr_same_policy U ch rhs
  | char rhs => exact iochannel.push_char_same_policy U ch rhs
  | char_ptr rhs => exact iochannel.push_char_ptr_same_policy U ch rhs
  | string rhs => exact iochannel.push_string_same_policy ch rhs
  | base rhs =>
    simp only [iochannel.push, iochannel.push_base]
    split <;> exact ⟨rfl, rfl, rfl, rfl, rfl⟩
  | charval rhs =>
    simp only [iochannel.push, iochannel.push_charval]
    split <;> exact ⟨rfl, rfl, rfl, rfl, rfl⟩
  | set_precision rhs =>
    simp only [iochannel.push, iochannel.push_set_precision]
    split <;> exact ⟨rfl, rfl, rfl, rfl, rfl⟩
  | sci rhs =>
    simp only [iochannel.push, iochannel.push_sci]
    split <;> exact ⟨rfl, rfl, rfl, rfl, rfl⟩
  | numcase rhs =>
    simp only [iochannel.push, iochannel.push_numcase]
    split <;> exact ⟨rfl, rfl, rfl, rfl, rfl⟩
  | ptr rhs =>
    simp only [iochannel.push, iochannel.push_ptr]
    split <;> exact ⟨rfl, rfl, rfl, rfl, rfl⟩
  | bg rhs =>
    simp only [iochannel.push, iochannel.push_bg]
    split <;> exact ⟨rfl, rfl, rfl, rfl, rfl⟩
  | fg rhs =>
    simp only [iochannel.push, iochannel.push_fg]
    split <;> exact ⟨rfl, rfl, rfl, rfl, rfl⟩
  | ta rhs =>
    simp only [iochannel.push, iochannel.push_ta]
    split <;> exact ⟨rfl, rfl, rfl, rfl, rfl⟩
  | read_size rhs =>
    simp only [iochannel.push, iochannel.push_read_size]
    split <;> exact ⟨rfl, rfl, rfl, rfl, rfl⟩
  | memsep rhs =>
    simp only [iochannel.push, iochannel.push_memsep]
    split
    · exact ⟨rfl, rfl, rfl, rfl, rfl⟩
    · split <;> exact ⟨rfl, rfl, rfl, rfl, rfl⟩
  | verbosity rhs => exact ⟨rfl, rfl, rfl, rfl, rfl⟩
  | category rhs => exact ⟨rfl, rfl, rfl, rfl, rfl⟩
  | special rhs => exact iochannel.push_special_same_policy ch rhs

namespace iochannel

theorem reset_attributes_of_none (ch : iochannel) (hta : ch.ta = ta_none)
    (hfg : ch.fg = fg_none) (hbg : ch.bg = bg_none) : ch.reset_attributes = ch := by
  unfold reset_attributes
  simp [hta, hfg, hbg, ta_none, fg_none, bg_none]

theorem push_string_of_rejected (ch : iochannel) (s : String) (hrej : ch.can_parse = false) :
    ch.push_string s = ch := by
  simp [push_string, hrej]

theorem push_string_of_accepted (ch : iochannel) (s : String) (hp : ch.can_parse = true) :
    ch.push_string s = ch.inject (c_str s) false Piece.content := by
  simp [push_string, hp]

theorem inject_can_parse (ch : iochannel) (str : String) (tag : String → Piece) :
    (ch.inject str false tag).can_parse = ch.can_parse := by
  cases hd : ch.dirty_attributes
  · rw [inject_clean ch str tag hd]
    rfl
  · rw [inject_dirty ch str tag hd]
    rfl

end iochannel

/-- C12 as stated fails: foreground red is pushed while the filter accepts,
then `debug` is muted and made the current category; the buffer is empty and
the filter rejects, yet after the text "x" (a no-op) the marker `end` injects
the pending reset sequence and transmit hands it to the subscribers. -/
theorem rejected_end_still_transmits :
    iochannel.sample_muted_red.msg = "" ∧ iochannel.sample_muted_red.can_parse = false ∧
      Event.signal_all "\x1b[0m" .vrb_normal .cat_debug
        ∈ (iochannel.sample_muted_red.run stdutils.reference
            [Token.string "x", Token.special .io_end]).2 := by
  refine ⟨by decide, by decide, ?_⟩
  decide!

/-- C12, amended: for every channel state with an empty message buffer in
which the filter rejects the current (verbosity, category), the dirty flag is
clear and foreground, background and text attribute are none, appending any
text and then pushing the flush marker `end` invokes no subscriber on any axis
and performs no echo. -/
theorem rejected_message_is_silent (U : stdutils) (ch : iochannel) (s : String)
    (hmsg : ch.msg = "") (hrej : ch.can_parse = false) (hd : ch.dirty_attributes = false)
    (hta : ch.ta = ta_none) (hfg : ch.fg = fg_none) (hbg : ch.bg = bg_none) :
    (ch.run U [Token.string s, Token.special .io_end]).2 = [] := by
  have hrun : (ch.run U [Token.string s, Token.special .io_end]).2
      = ((ch.push_string s).reset_attributes.inject_newline.transmit false).2 := by
    simp [iochannel.run, iochannel.push, iochannel.push_special]
  rw [hrun, iochannel.push_string_of_rejected ch s hrej,
    iochannel.reset_attributes_of_none ch hta hfg hbg]
  have hm : ch.inject_newline.msg = "" := by
    unfold iochannel.inject_newline
    rw [if_neg (by simp [hrej]), iochannel.inject_msg, hd]
    simp only [Bool.false_eq_true, ↓reduceIte, hmsg]
    decide
  rw [iochannel.transmit_empty _ _ hm]

theorem rejected_message_is_silent_witness :
    ((((iochannel.sample.shutup_cat .cat_debug).1).push_category .cat_debug).run
      stdutils.reference [Token.string "x", Token.special .io_end]).2 = [] :=
  rejected_message_is_silent stdutils.reference
    (((iochannel.sample.shutup_cat .cat_debug).1).push_category .cat_debug) "x"
    (by decide) (by decide) (by decide) (by decide) (by decide) (by decide)

/-- C13: from a channel with empty buffer, default formatting state, dirty flag
clear and the filter accepting, appending the integer `n` and then pushing
`end` invokes the "all" channel with the base-ten rendering of `n` by
`stdutils::itoa` followed by one newline, every subscriber invoked receives
exactly that message, no escape sequence is put into the buffer, and the
buffer is empty afterwards. -/
theorem integer_message_delivered (U : stdutils) (ch : iochannel) (n : Int)
    (hmsg : ch.msg = "") (hdef : ch.transient_default) (hd : ch.dirty_attributes = false)
    (hp : ch.can_parse = true) :
    Event.signal_all
        (U.itoa n base_dec (U.intlen n base_dec true) .num_lower ++ "\n") .vrb_normal
        .cat_normal
      ∈ (ch.run U [Token.int n, Token.special .io_end]).2 ∧
    (∀ e ∈ (ch.run U [Token.int n, Token.special .io_end]).2, ∀ m, e.delivered = some m →
      m = U.itoa n base_dec (U.intlen n base_dec true) .num_lower ++ "\n") ∧
    ((ch.push_int U n).before_transmit .io_end).pieces
      = ch.pieces ++ [Piece.content (U.itoa n base_dec (U.intlen n base_dec true) .num_lower),
          Piece.content "\n"] ∧
    (ch.run U [Token.int n, Token.special .io_end]).1.msg = "" := by
  obtain ⟨hbase, hcase, _, _, _, _, _, _, hfg, hbg, hta, hvrb, hcat⟩ := hdef
  have hrun : ch.run U [Token.int n, Token.special .io_end]
      = ((ch.push_int U n).reset_attributes.inject_newline.transmit false) := by
    simp [iochannel.run, iochannel.push, iochannel.push_special]
  have h1 : ch.push_int U n
      = ch.append (U.itoa n base_dec (U.intlen n base_dec true) .num_lower) Piece.content := by
    unfold iochannel.push_int
    simp only [hp, Bool.not_true, Bool.false_eq_true, ↓reduceIte]
    rw [iochannel.inject_clean ch _ _ hd, hbase, hcase]
  have h2 : (ch.push_int U n).reset_attributes = ch.push_int U n := by
    apply iochannel.reset_attributes_of_none
    · rw [h1]; exact hta
    · rw [h1]; exact hfg
    · rw [h1]; exact hbg
  have h3 : (ch.push_int U n).inject_newline
      = (ch.push_int U n).append "\n" Piece.content := by
    unfold iochannel.inject_newline
    rw [if_pos (by rw [h1]; exact hp), iochannel.inject_clean _ _ _ (by rw [h1]; exact hd)]
  have hm : ((ch.push_int U n).inject_newline).msg
      = U.itoa n base_dec (U.intlen n base_dec true) .num_lower ++ "\n" := by
    rw [h3, h1]
    simp [iochannel.append, hmsg]
  have hne : ((ch.push_int U n).inject_newline).msg ≠ "" := by
    rw [hm]
    apply iochannel.ne_empty_of_length_pos
    have hl : ("\n" : String).length = 1 := by decide
    simp only [String.length_append, hl]
    omega
  have hv : ((ch.push_int U n).inject_newline).vrb = .vrb_normal := by
    rw [h3, h1]; exact hvrb
  have hc : ((ch.push_int U n).inject_newline).cat = .cat_normal := by
    rw [h3, h1]; exact hcat
  rw [hrun, h2]
  refine ⟨?_, ?_, ?_, iochannel.transmit_msg_empty _ _⟩
  · rw [iochannel.transmit_events _ _ hne, hm, hv, hc]
    simp
  · intro e he m hmd
    rw [← hm]
    exact iochannel.transmit_delivered _ _ e he m hmd
  · show (ch.push_int U n).reset_attributes.inject_newline.pieces = _
    rw [h2, h3, h1]
    simp [iochannel.append]

theorem integer_message_delivered_witness :
    Event.signal_all "42\n" .vrb_normal .cat_normal
      ∈ (iochannel.sample.run stdutils.reference [Token.int 42, Token.special .io_end]).2 ∧
    (∀ e ∈ (iochannel.sample.run stdutils.reference
        [Token.int 42, Token.special .io_end]).2, ∀ m, e.delivered = some m → m = "42\n") ∧
    ((iochannel.sample.push_int stdutils.reference 42).before_transmit .io_end).pieces
      = [Piece.content "42", Piece.content "\n"] ∧
    (iochannel.sample.run stdutils.reference [Token.int 42, Token.special .io_end]).1.msg
      = "" :=
  integer_message_delivered stdutils.reference iochannel.sample 42 (by decide) (by decide)
    (by decide) (by decide)

/-- C14: in every channel state, whether the filter accepts or rejects, a
verbosity token `v` sets the current verbosity to `v` and a category token `c`
sets the current category to `c`; each changes no other field of the channel
and has no outside effect. -/
theorem verbosity_and_category_tokens (U : stdutils) (ch : iochannel)
    (v : IOFormatVerbosity) (c : IOFormatCategory) :
    ch.push U (Token.verbosity v) = ({ ch with vrb := v }, []) ∧
      ch.push U (Token.category c) = ({ ch with cat := c }, []) :=
  ⟨rfl, rfl⟩

namespace iochannel

theorem shutup_cat_fst (ch : iochannel) (c : IOFormatCategory) :
    (ch.shutup_cat c).1
      = { ch with process_c := ch.process_c ^^^ (ch.process_c &&& c.toNat) } := by
  unfold shutup_cat
  dsimp only
  split <;> rfl

theorem testBit_clear (p c i : Nat) :
    (p ^^^ (p &&& c)).testBit i = (p.testBit i && !c.testBit i) := by
  rw [Nat.testBit_xor, Nat.testBit_and]
  cases p.testBit i <;> cases c.testBit i <;> rfl

theorem clear_and_self (p c : Nat) : (p ^^^ (p &&& c)) &&& c = 0 := by
  apply Nat.eq_of_testBit_eq
  intro i
  rw [Nat.testBit_and, testBit_clear, Nat.zero_testBit]
  cases p.testBit i <;> cases c.testBit i <;> rfl

theorem clear_or_self (p c : Nat) (h : ∀ i, c.testBit i = true → p.testBit i = true) :
    (p ^^^ (p &&& c)) ||| c = p := by
  apply Nat.eq_of_testBit_eq
  intro i
  rw [Nat.testBit_or, testBit_clear]
  have hi := h i
  cases hc : c.testBit i
  · simp
  · simp [hi hc]

end iochannel

/-- C15: `mute(c)` clears exactly the bits of `c` in the process category mask
(one bit for each of normal, warning, error and debug), leaves the other bits
and every other field of the channel unchanged, writes the one-line warning to
the process output if and only if the resulting mask is zero, and afterwards
the filter rejects a message whose current category is `c`, whatever its
verbosity. -/
theorem mute_category (ch : iochannel) (c : IOFormatCategory) :
    (ch.shutup_cat c).1 = { ch with process_c := (ch.shutup_cat c).1.process_c } ∧
    (∀ i, (ch.shutup_cat c).1.process_c.testBit i
      = (ch.process_c.testBit i && !c.toNat.testBit i)) ∧
    (ch.shutup_cat c).2
      = (if (ch.shutup_cat c).1.process_c = 0 then
          [Event.printf "WARNING: All message categories have been turned off!\n"]
        else []) ∧
    ∀ v : IOFormatVerbosity,
      ({ (ch.shutup_cat c).1 with vrb := v, cat := c } : iochannel).can_parse = false := by
  refine ⟨?_, ?_, ?_, ?_⟩
  · rw [iochannel.shutup_cat_fst]
  · intro i
    rw [iochannel.shutup_cat_fst]
    exact iochannel.testBit_clear _ _ _
  · unfold iochannel.shutup_cat
    by_cases h : (ch.process_c ^^^ (ch.process_c &&& c.toNat)) = 0
    · simp [h]
    · simp [h]
  · intro v
    rw [iochannel.shutup_cat_fst]
    simp [iochannel.can_parse, iochannel.clear_and_self]

/-- C16: after `unmute()` the process verbosity is the highest level, the
process category mask has every category bit set, and the filter accepts every
pair of a current verbosity and a current category. -/
theorem unmute_accepts_everything (ch : iochannel) (v : IOFormatVerbosity)
    (c : IOFormatCategory) :
    ch.speakup.process_v = .vrb_tmi ∧
    (∀ k : IOFormatCategory, ch.speakup.process_c &&& k.toNat = k.toNat) ∧
    ({ ch.speakup with vrb := v, cat := c } : iochannel).can_parse = true := by
  refine ⟨rfl, ?_, ?_⟩
  · intro k
    show IOFormatCategory.cat_all.toNat &&& k.toNat = k.toNat
    cases k <;> decide
  · show (decide (v ≤ IOFormatVerbosity.vrb_tmi)
      && (IOFormatCategory.cat_all.toNat &&& c.toNat != 0)) = true
    cases v <;> cases c <;> decide

/-- C17: `unmute(c)` sets the bits of `c` in the process category mask and
changes no other bit and no other field; `mute(c)` followed by `unmute(c)`
restores the original state whenever the bits of `c` were set originally; and
`unmute(c)` is idempotent. -/
theorem unmute_category (ch : iochannel) (c : IOFormatCategory) :
    ch.speakup_cat c = { ch with process_c := (ch.speakup_cat c).process_c } ∧
    (∀ i, (ch.speakup_cat c).process_c.testBit i
      = (ch.process_c.testBit i || c.toNat.testBit i)) ∧
    ((∀ i, c.toNat.testBit i = true → ch.process_c.testBit i = true) →
      (ch.shutup_cat c).1.speakup_cat c = ch) ∧
    (ch.speakup_cat c).speakup_cat c = ch.speakup_cat c := by
  refine ⟨rfl, ?_, ?_, ?_⟩
  · intro i
    exact Nat.testBit_or _ _ _
  · intro h
    rw [iochannel.shutup_cat_fst]
    simp only [iochannel.speakup_cat]
    rw [iochannel.clear_or_self _ _ h]
  · simp only [iochannel.speakup_cat]
    rw [Nat.or_assoc, Nat.or_self]

theorem unmute_category_witness :
    (iochannel.sample.shutup_cat .cat_debug).1.speakup_cat .cat_debug = iochannel.sample :=
  (unmute_category iochannel.sample .cat_debug).2.2.1 (by
    intro i hi
    have h15 : iochannel.sample.process_c = 15 := rfl
    have h8 : IOFormatCategory.cat_debug.toNat = 8 := rfl
    rw [h8] at hi
    rw [h15]
    have hlt : i < 4 := by
      by_contra hge
      have : (8 : Nat) < 2 ^ i := by
        calc (8 : Nat) < 2 ^ 4 := by decide
          _ ≤ 2 ^ i := Nat.pow_le_pow_right (by decide) (by omega)
      rw [Nat.testBit_lt_two_pow this] at hi
      exact absurd hi (by decide)
    interval_cases i <;> rfl)

/-- C18 as stated fails: with the ceiling at quiet, `mute(tmi)` puts the
ceiling at tmi, which is higher than before. -/
theorem mute_verbosity_can_raise :
    ¬ (((iochannel.sample.shutup_vrb .vrb_quiet).shutup_vrb .vrb_tmi).process_v
        ≤ (iochannel.sample.shutup_vrb .vrb_quiet).process_v) := by
  decide

/-- C18, amended: `mute(v)` sets the verbosity ceiling to `v`, whatever it was
before, and changes nothing else; the process verbosity after the call is not
higher than before exactly when `v` is not higher than the previous ceiling. -/
theorem mute_verbosity_sets_ceiling (ch : iochannel) (v : IOFormatVerbosity) :
    ch.shutup_vrb v = { ch with process_v := v } ∧
      ((ch.shutup_vrb v).process_v ≤ ch.process_v ↔ v ≤ ch.process_v) :=
  ⟨rfl, Iff.rfl⟩

namespace iochannel

theorem push_memsep_of_accepted (ch : iochannel) (t : Nat) (hp : ch.can_parse = true) :
    ch.push_memsep t
      = { ch with memformat := if t = 0 then 0 else ch.memformat ||| t } := by
  unfold push_memsep
  by_cases ht : t = 0
  · simp [hp, ht]
  · simp [hp, ht]

theorem push_char_ptr_value (U : stdutils) (ch : iochannel) (rhs : Pointer String)
    (hp : ch.can_parse = true) (hv : ch.ptr = .ptr_value) :
    ch.push_char_ptr U rhs = ch.inject (c_str rhs.pointee) false Piece.content := by
  unfold push_char_ptr
  simp [hp, hv]

theorem push_void_ptr_value (U : stdutils) (ch : iochannel) (rhs : Pointer Unit)
    (hp : ch.can_parse = true) (hv : ch.ptr = .ptr_value) :
    ch.push_void_ptr U rhs
      = ch.inject "[iochannel cannot interpret value at pointer of this type.]" false
          Piece.content := by
  unfold push_void_ptr
  simp only [hp, hv, Bool.not_true, Bool.false_eq_true, ↓reduceIte]
  rw [push_char_ptr_value U ch _ hp hv]
  have hc : c_str "[iochannel cannot interpret value at pointer of this type.]"
      = "[iochannel cannot interpret value at pointer of this type.]" := by decide
  show ch.inject (c_str "[iochannel cannot interpret value at pointer of this type.]") false
      Piece.content = _
  rw [hc]

end iochannel

/-! ## Modifier tokens and pointers -/

/-- C19: when the filter accepts, a memory-separator token `t` sets the
memory-dump mask to 0 if `t` is zero and to the bitwise OR of the old mask and
`t` otherwise, and changes no other field; pushing byte-separator and
word-separator in either order gives the same state, whose mask has both
flags; and pushing the same non-zero token twice equals pushing it once. -/
theorem memory_separator_mask (ch : iochannel) (t : Nat) (hp : ch.can_parse = true) :
    ch.push_memsep t = { ch with memformat := if t = 0 then 0 else ch.memformat ||| t } ∧
    (ch.push_memsep mem_bytesep).push_memsep mem_wordsep
      = (ch.push_memsep mem_wordsep).push_memsep mem_bytesep ∧
    ((ch.push_memsep mem_bytesep).push_memsep mem_wordsep).memformat
      = ch.memformat ||| mem_bytesep ||| mem_wordsep ∧
    ((ch.push_memsep mem_bytesep).push_memsep mem_wordsep).memformat.testBit 0 = true ∧
    ((ch.push_memsep mem_bytesep).push_memsep mem_wordsep).memformat.testBit 1 = true ∧
    (t ≠ 0 → (ch.push_memsep t).push_memsep t = ch.push_memsep t) := by
  have hb : ch.push_memsep mem_bytesep = { ch with memformat := ch.memformat ||| mem_bytesep } := by
    rw [iochannel.push_memsep_of_accepted ch _ hp]
    simp [mem_bytesep]
  have hw : ch.push_memsep mem_wordsep = { ch with memformat := ch.memformat ||| mem_wordsep } := by
    rw [iochannel.push_memsep_of_accepted ch _ hp]
    simp [mem_wordsep]
  have hbw : (ch.push_memsep mem_bytesep).push_memsep mem_wordsep
      = { ch with memformat := ch.memformat ||| mem_bytesep ||| mem_wordsep } := by
    rw [iochannel.push_memsep_of_accepted _ _ (by rw [hb]; exact hp), hb]
    simp [mem_wordsep]
  have hwb : (ch.push_memsep mem_wordsep).push_memsep mem_bytesep
      = { ch with memformat := ch.memformat ||| mem_wordsep ||| mem_bytesep } := by
    rw [iochannel.push_memsep_of_accepted _ _ (by rw [hw]; exact hp), hw]
    simp [mem_bytesep]
  refine ⟨iochannel.push_memsep_of_accepted ch t hp, ?_, ?_, ?_, ?_, ?_⟩
  · rw [hbw, hwb, Nat.or_assoc, Nat.or_assoc, Nat.or_comm mem_bytesep mem_wordsep]
  · rw [hbw]
  · rw [hbw]
    have h1 : Nat.testBit mem_bytesep 0 = true := by decide
    show (ch.memformat ||| mem_bytesep ||| mem_wordsep).testBit 0 = true
    rw [Nat.testBit_or, Nat.testBit_or, h1, Bool.or_true, Bool.true_or]
  · rw [hbw]
    have h2 : Nat.testBit mem_wordsep 1 = true := by decide
    show (ch.memformat ||| mem_bytesep ||| mem_wordsep).testBit 1 = true
    rw [Nat.testBit_or, h2, Bool.or_true]
  · intro ht
    have h1 : ch.push_memsep t = { ch with memformat := ch.memformat ||| t } := by
      rw [iochannel.push_memsep_of_accepted ch t hp, if_neg ht]
    rw [iochannel.push_memsep_of_accepted _ _ (by rw [h1]; exact hp), if_neg ht, h1]
    simp [Nat.or_assoc]

theorem memory_separator_mask_witness :
    (iochannel.sample.push_memsep mem_bytesep).push_memsep mem_wordsep
      = (iochannel.sample.push_memsep mem_wordsep).push_memsep mem_bytesep ∧
    ((iochannel.sample.push_memsep mem_bytesep).push_memsep mem_wordsep).memformat = 3 :=
  ⟨(memory_separator_mask iochannel.sample 0 (by decide)).2.1,
    (memory_separator_mask iochannel.sample 0 (by decide)).2.2.1⟩

/-- C20: when the filter accepts and pointer handling is value, appending an
untyped pointer appends exactly the placeholder
"[iochannel cannot interpret value at pointer of this type.]", preceded by an
escape sequence only if the dirty flag was set; the result is the same for
every pointer (nothing is read through it), and it is an ordinary state (no
failure). -/
theorem untyped_pointer_placeholder (U : stdutils) (ch : iochannel) (p : Pointer Unit)
    (hp : ch.can_parse = true) (hv : ch.ptr = .ptr_value) :
    (ch.push_void_ptr U p).msg
      = ch.msg ++ (if ch.dirty_attributes then sgr_sequence ch.ta ch.bg ch.fg else "")
          ++ "[iochannel cannot interpret value at pointer of this type.]" ∧
    (ch.push_void_ptr U p).pieces
      = ch.pieces
          ++ (if ch.dirty_attributes then [Piece.sgr (sgr_sequence ch.ta ch.bg ch.fg) true]
              else [])
          ++ [Piece.content "[iochannel cannot interpret value at pointer of this type.]"] ∧
    ∀ q : Pointer Unit, ch.push_void_ptr U q = ch.push_void_ptr U p := by
  refine ⟨?_, ?_, ?_⟩
  · rw [iochannel.push_void_ptr_value U ch p hp hv, iochannel.inject_msg]
    cases ch.dirty_attributes <;> simp
  · rw [iochannel.push_void_ptr_value U ch p hp hv, iochannel.inject_pieces]
    cases ch.dirty_attributes <;> simp
  · intro q
    rw [iochannel.push_void_ptr_value U ch p hp hv, iochannel.push_void_ptr_value U ch q hp hv]

theorem untyped_pointer_placeholder_witness :
    (iochannel.sample.push_void_ptr stdutils.reference ⟨0, (), fun _ => 0⟩).msg
      = "[iochannel cannot interpret value at pointer of this type.]" ∧
    (iochannel.sample.push_void_ptr stdutils.reference ⟨0, (), fun _ => 0⟩).pieces
      = [Piece.content "[iochannel cannot interpret value at pointer of this type.]"] ∧
    ∀ q : Pointer Unit, iochannel.sample.push_void_ptr stdutils.reference q
      = iochannel.sample.push_void_ptr stdutils.reference ⟨0, (), fun _ => 0⟩ :=
  untyped_pointer_placeholder stdutils.reference iochannel.sample ⟨0, (), fun _ => 0⟩
    (by decide) (by decide)

namespace iochannel

theorem same_formatting_plain {a b : iochannel} (h : a.same_formatting b) :
    a.same_plain_formatting b := by
  obtain ⟨h1, h2, h3, h4, h5, h6, h7, h8, _, _, _, h12, h13⟩ := h
  exact ⟨h1, h2, h3, h4, h5, h6, h7, h8, h12, h13⟩

theorem same_plain_formatting_trans {a b c : iochannel} (h1 : a.same_plain_formatting b)
    (h2 : b.same_plain_formatting c) : a.same_plain_formatting c := by
  obtain ⟨a1, a2, a3, a4, a5, a6, a7, a8, a9, a10⟩ := h1
  obtain ⟨b1, b2, b3, b4, b5, b6, b7, b8, b9, b10⟩ := h2
  exact ⟨a1.trans b1, a2.trans b2, a3.trans b3, a4.trans b4, a5.trans b5, a6.trans b6,
    a7.trans b7, a8.trans b8, a9.trans b9, a10.trans b10⟩

theorem reset_attributes_plain (ch : iochannel) :
    ch.same_plain_formatting ch.reset_attributes := by
  unfold reset_attributes
  split <;> exact ⟨rfl, rfl, rfl, rfl, rfl, rfl, rfl, rfl, rfl, rfl⟩

theorem reset_attributes_none (ch : iochannel) :
    ch.reset_attributes.ta = ta_none ∧ ch.reset_attributes.fg = fg_none ∧
      ch.reset_attributes.bg = bg_none := by
  unfold reset_attributes
  split
  · exact ⟨rfl, rfl, rfl⟩
  · rename_i h
    simp only [gt_iff_lt, Bool.or_eq_true, decide_eq_true_eq, not_or, not_lt,
      Nat.le_zero_eq] at h
    exact ⟨h.1.1, h.1.2, h.2⟩

theorem reset_attributes_dirty (ch : iochannel) :
    ch.reset_attributes.dirty_attributes
      = (ch.dirty_attributes || decide (0 < ch.ta) || decide (0 < ch.fg)
          || decide (0 < ch.bg)) := by
  unfold reset_attributes
  split
  · rename_i h
    simp only [gt_iff_lt, Bool.or_eq_true, decide_eq_true_eq] at h
    rcases h with (h | h) | h <;> simp [h]
  · rename_i h
    simp only [gt_iff_lt, Bool.or_eq_true, decide_eq_true_eq, not_or, not_lt,
      Nat.le_zero_eq] at h
    simp [h.1.1, h.1.2, h.2]

theorem transmit_keep_dirty (ch : iochannel) :
    (ch.transmit true).1.dirty_attributes = ch.dirty_attributes := by
  unfold transmit
  split <;> rfl

theorem inject_attributes (ch : iochannel) (str : String) (tag : String → Piece) :
    (ch.inject str false tag).ta = ch.ta ∧ (ch.inject str false tag).fg = ch.fg ∧
      (ch.inject str false tag).bg = ch.bg := by
  have h := inject_same_formatting ch str tag
  exact ⟨h.2.2.2.2.2.2.2.2.2.2.1.symm, h.2.2.2.2.2.2.2.2.1.symm,
    h.2.2.2.2.2.2.2.2.2.1.symm⟩

theorem inject_newline_msg (ch : iochannel) :
    ch.inject_newline.msg
      = ch.msg ++ (if ch.dirty_attributes then sgr_sequence ch.ta ch.bg ch.fg else "")
          ++ (if ch.can_parse then "\n" else "") := by
  unfold inject_newline
  by_cases hp : ch.can_parse = true
  · rw [if_pos hp, inject_msg, if_pos hp]
    cases ch.dirty_attributes <;> simp
  · rw [if_neg hp, inject_msg, if_neg hp]
    cases ch.dirty_attributes <;> simp

end iochannel

/-! ## The six flush markers -/

/-- C21 as stated fails: with "x" in the buffer and a foreground colour
pending, `send-keep` delivers "x" followed by the escape sequence of the
pending colour, not the buffer content alone. -/
theorem send_keep_appends_pending_sgr :
    iochannel.sample_pending.msg = "x" ∧
    ¬ (∀ e ∈ (iochannel.sample_pending.push_special .io_send_keep).2,
        ∀ m, e.delivered = some m → m = iochannel.sample_pending.msg) := by
  have hm : iochannel.sample_pending.msg = "x" := by decide!
  refine ⟨hm, ?_⟩
  intro h
  have hmem : Event.signal_all "x\x1b[0;31m" .vrb_normal .cat_normal
      ∈ (iochannel.sample_pending.push_special .io_send_keep).2 := by decide!
  have := h _ hmem "x\x1b[0;31m" rfl
  rw [hm] at this
  exact absurd this (by decide)

/-- C21, amended: the flush marker `send-keep` delivers to subscribers the
buffer content accumulated before the marker, followed by the escape sequence
of the current attributes when the dirty flag is set and by nothing when it is
clear (never a newline); the message is delivered when it is non-empty, the
buffer is empty afterwards, and no formatting field is changed. -/
theorem send_keep_effects (ch : iochannel) :
    (∀ e ∈ (ch.push_special .io_send_keep).2, ∀ m, e.delivered = some m →
      m = ch.msg ++ (if ch.dirty_attributes then sgr_sequence ch.ta ch.bg ch.fg else "")) ∧
    (ch.msg ++ (if ch.dirty_attributes then sgr_sequence ch.ta ch.bg ch.fg else "") ≠ "" →
      Event.signal_all
          (ch.msg ++ (if ch.dirty_attributes then sgr_sequence ch.ta ch.bg ch.fg else ""))
          ch.vrb ch.cat
        ∈ (ch.push_special .io_send_keep).2) ∧
    (ch.push_special .io_send_keep).1.msg = "" ∧
    ch.same_formatting (ch.push_special .io_send_keep).1 := by
  have hm : (ch.inject "" false Piece.content).msg
      = ch.msg ++ (if ch.dirty_attributes then sgr_sequence ch.ta ch.bg ch.fg else "") := by
    rw [iochannel.inject_msg]
    cases ch.dirty_attributes <;> simp
  have hf := iochannel.inject_same_formatting ch "" Piece.content
  refine ⟨?_, ?_, iochannel.transmit_msg_empty _ _, ?_⟩
  · intro e he m hd
    rw [← hm]
    exact iochannel.transmit_delivered _ _ e he m hd
  · intro hne
    rw [← hm] at hne
    show _ ∈ ((ch.inject "" false Piece.content).transmit true).2
    rw [iochannel.transmit_events _ _ hne, hm, ← hf.2.2.2.2.2.2.2.2.2.2.2.1,
      ← hf.2.2.2.2.2.2.2.2.2.2.2.2]
    simp
  · exact iochannel.same_formatting_trans hf (iochannel.transmit_keep_same_formatting _)

theorem send_keep_effects_witness :
    Event.signal_all "x\x1b[0;31m" .vrb_normal .cat_normal
      ∈ (iochannel.sample_pending.push_special .io_send_keep).2 := by
  have h := (send_keep_effects iochannel.sample_pending).2.1
  have hm : iochannel.sample_pending.msg = "x" := by decide!
  have hd : iochannel.sample_pending.dirty_attributes = true := by decide!
  have ht : iochannel.sample_pending.ta = 0 := by decide!
  have hb : iochannel.sample_pending.bg = 0 := by decide!
  have hg : iochannel.sample_pending.fg = 31 := by decide!
  have hv : iochannel.sample_pending.vrb = .vrb_normal := by decide!
  have hc : iochannel.sample_pending.cat = .cat_normal := by decide!
  rw [hm, hd, ht, hb, hg, hv, hc] at h
  exact h (by decide)

theorem iochannel.reset_flags_def (ch : iochannel) :
    ch.reset_flags
      = { ch.reset_attributes with
          base := base_dec
          charval := .char_char
          precision := 14
          sci := .sci_auto
          numcase := .num_lower
          ptr := .ptr_value
          readsize := 1
          memformat := 0
          vrb := .vrb_normal
          cat := .cat_normal } :=
  rfl

/-- C22: after the flush marker `send`, foreground, background and text
attribute are none, the dirty flag is clear and the message buffer is empty;
the message handed to the subscribers is the previous buffer followed at most
by the reset escape sequence `ESC[0m` (when an attribute change was pending or
an attribute was set), never by a newline; and base, numeral case, scientific
mode, precision, char handling, pointer handling, read size, memory-dump mask,
current verbosity and current category are unchanged. -/
theorem send_effects (ch : iochannel) :
    (ch.push_special .io_send).1.fg = fg_none ∧
    (ch.push_special .io_send).1.bg = bg_none ∧
    (ch.push_special .io_send).1.ta = ta_none ∧
    (ch.push_special .io_send).1.dirty_attributes = false ∧
    (ch.push_special .io_send).1.msg = "" ∧
    (∀ e ∈ (ch.push_special .io_send).2, ∀ m, e.delivered = some m →
      m = ch.msg ++ (if (ch.dirty_attributes || decide (0 < ch.ta) || decide (0 < ch.fg)
          || decide (0 < ch.bg)) then "\x1b[0m" else "")) ∧
    ch.same_plain_formatting (ch.push_special .io_send).1 := by
  have hn := iochannel.reset_attributes_none ch
  have hi := iochannel.inject_attributes ch.reset_attributes "" Piece.content
  have hf := iochannel.inject_same_formatting ch.reset_attributes "" Piece.content
  have ht := iochannel.transmit_keep_same_formatting
    (ch.reset_attributes.inject "" false Piece.content)
  have hall := iochannel.same_formatting_trans hf ht
  have hm : (ch.reset_attributes.inject "" false Piece.content).msg
      = ch.msg ++ (if (ch.dirty_attributes || decide (0 < ch.ta) || decide (0 < ch.fg)
          || decide (0 < ch.bg)) then "\x1b[0m" else "") := by
    rw [iochannel.inject_msg, iochannel.reset_attributes_dirty, hn.1, hn.2.1, hn.2.2,
      iochannel.msg_reset_attributes]
    have hs : sgr_sequence ta_none bg_none fg_none = "\x1b[0m" := iochannel.sgr_sequence_reset
    rw [hs]
    cases (ch.dirty_attributes || decide (0 < ch.ta) || decide (0 < ch.fg)
      || decide (0 < ch.bg)) <;> simp
  refine ⟨?_, ?_, ?_, ?_, iochannel.transmit_msg_empty _ _, ?_, ?_⟩
  · exact (hall.2.2.2.2.2.2.2.2.1).symm.trans hn.2.1
  · exact (hall.2.2.2.2.2.2.2.2.2.1).symm.trans hn.2.2
  · exact (hall.2.2.2.2.2.2.2.2.2.2.1).symm.trans hn.1
  · show ((ch.reset_attributes.inject "" false Piece.content).transmit true).1.dirty_attributes
      = false
    rw [iochannel.transmit_keep_dirty]
    exact iochannel.inject_dirty_attributes _ _ _
  · intro e he m hd
    rw [← hm]
    exact iochannel.transmit_delivered _ _ e he m hd
  · exact iochannel.same_plain_formatting_trans (iochannel.reset_attributes_plain ch)
      (iochannel.same_formatting_plain hall)

/-- C23: the flush markers `endline` and `endline-keep` do not transmit (no
subscriber is invoked, nothing is echoed) and do not clear the buffer: the new
buffer is the previous buffer, then the pending escape sequence if there is
one, then exactly one newline when the filter accepts (nothing when it
rejects).  `endline-keep` changes no formatting field; `endline` sets
foreground, background and text attribute to none and changes no other
formatting field. -/
theorem endline_effects (ch : iochannel) :
    (ch.push_special .io_endline).2 = [] ∧
    (ch.push_special .io_endline_keep).2 = [] ∧
    (ch.push_special .io_endline).1.msg
      = ch.msg ++ (if (ch.dirty_attributes || decide (0 < ch.ta) || decide (0 < ch.fg)
            || decide (0 < ch.bg)) then "\x1b[0m" else "")
          ++ (if ch.can_parse then "\n" else "") ∧
    (ch.push_special .io_endline_keep).1.msg
      = ch.msg ++ (if ch.dirty_attributes then sgr_sequence ch.ta ch.bg ch.fg else "")
          ++ (if ch.can_parse then "\n" else "") ∧
    ch.same_formatting (ch.push_special .io_endline_keep).1 ∧
    (ch.push_special .io_endline).1.fg = fg_none ∧
    (ch.push_special .io_endline).1.bg = bg_none ∧
    (ch.push_special .io_endline).1.ta = ta_none ∧
    ch.same_plain_formatting (ch.push_special .io_endline).1 := by
  have hn := iochannel.reset_attributes_none ch
  have hf := iochannel.inject_newline_same_formatting ch.reset_attributes
  refine ⟨rfl, rfl, ?_, iochannel.inject_newline_msg ch,
    iochannel.inject_newline_same_formatting ch, ?_, ?_, ?_, ?_⟩
  · show ch.reset_attributes.inject_newline.msg = _
    rw [iochannel.inject_newline_msg, iochannel.reset_attributes_dirty, hn.1, hn.2.1, hn.2.2,
      iochannel.msg_reset_attributes, iochannel.can_parse_reset_attributes]
    have hs : sgr_sequence ta_none bg_none fg_none = "\x1b[0m" := iochannel.sgr_sequence_reset
    rw [hs]
  · exact (hf.2.2.2.2.2.2.2.2.1).symm.trans hn.2.1
  · exact (hf.2.2.2.2.2.2.2.2.2.1).symm.trans hn.2.2
  · exact (hf.2.2.2.2.2.2.2.2.2.2.1).symm.trans hn.1
  · exact iochannel.same_plain_formatting_trans (iochannel.reset_attributes_plain ch)
      (iochannel.same_formatting_plain hf)

/-! ## The resets and the empty transmit -/

/-- C25: `reset_flags` sets base to decimal, char handling to as-character,
precision to 14, scientific mode to auto, numeral case to lower, pointer
handling to value, read size to 1, memory-dump mask to 0, foreground,
background and text attribute to none, current verbosity and category to
normal; afterwards the dirty flag is set if it was set before or some
attribute was non-default before, and clear otherwise; the message buffer is
untouched; and applying it twice equals applying it once. -/
theorem reset_flags_effects (ch : iochannel) :
    ch.reset_flags.transient_default ∧
    ch.reset_flags.dirty_attributes
      = (ch.dirty_attributes || decide (0 < ch.ta) || decide (0 < ch.fg)
          || decide (0 < ch.bg)) ∧
    ch.reset_flags.msg = ch.msg ∧
    ch.reset_flags.reset_flags = ch.reset_flags := by
  refine ⟨iochannel.reset_flags_transient_default ch, ?_, ?_, ?_⟩
  · show ch.reset_attributes.dirty_attributes = _
    exact iochannel.reset_attributes_dirty ch
  · show ch.reset_attributes.msg = ch.msg
    exact iochannel.msg_reset_attributes ch
  · have hd := iochannel.reset_flags_transient_default ch
    obtain ⟨_, _, _, _, _, _, _, _, hfg, hbg, hta, _, _⟩ := hd
    have hr : ch.reset_flags.reset_attributes = ch.reset_flags :=
      iochannel.reset_attributes_of_none _ hta hfg hbg
    rw [iochannel.reset_flags_def ch.reset_flags, hr]
    rfl

/-- C26: when the message buffer is empty, transmit (with keep true or false)
invokes no subscriber on any axis, echoes nothing and leaves the whole channel
state unchanged: no formatting field, current verbosity or current category is
reset. -/
theorem transmit_of_empty_buffer (ch : iochannel) (keep : Bool) (hmsg : ch.msg = "") :
    ch.transmit keep = (ch, []) := by
  unfold iochannel.transmit
  rw [if_neg]
  simp [hmsg]

theorem transmit_of_empty_buffer_witness :
    (iochannel.sample.push_base 16).transmit false = (iochannel.sample.push_base 16, []) :=
  transmit_of_empty_buffer (iochannel.sample.push_base 16) false (by decide)

namespace iochannel

theorem inject_tracked (ch : iochannel) (str : String) (tag : String → Piece)
    (h : ch.tracked) : (ch.inject str false tag).tracked := by
  intro _
  cases hd : ch.dirty_attributes
  · rw [inject_clean ch str tag hd]
    exact h hd
  · rw [inject_dirty ch str tag hd]
    rfl

theorem inject_char_tracked (ch : iochannel) (c : Char) (h : ch.tracked) :
    (ch.inject_char c).tracked := by
  intro _
  unfold inject_char
  cases hd : ch.dirty_attributes
  · rw [apply_attributes_clean ch hd]
    exact h hd
  · rw [apply_attributes_dirty ch hd]
    simp only [↓reduceIte]
    rw [inject_clean _ _ _ rfl]
    rfl

theorem inject_ptr_tracked (U : stdutils) (ch : iochannel) (address : Nat)
    (memory : Nat → Nat) (len : Nat) (dump : Bool) (h : ch.tracked) :
    (inject_ptr U ch address memory len dump).tracked := by
  unfold inject_ptr
  cases dump <;> exact inject_tracked ch _ _ h

theorem inject_newline_tracked (ch : iochannel) (h : ch.tracked) :
    ch.inject_newline.tracked := by
  unfold inject_newline
  split <;> exact inject_tracked ch _ _ h

theorem reset_attributes_tracked (ch : iochannel) (h : ch.tracked) :
    ch.reset_attributes.tracked := by
  unfold reset_attributes
  split
  · intro hd
    simp at hd
  · exact h

theorem reset_flags_tracked (ch : iochannel) (h : ch.tracked) : ch.reset_flags.tracked :=
  reset_attributes_tracked ch h

theorem transmit_tracked (ch : iochannel) (keep : Bool) (h : ch.tracked) :
    (ch.transmit keep).1.tracked := by
  unfold transmit
  split
  · cases keep
    · exact reset_flags_tracked ch h
    · exact h
  · exact h

theorem push_bool_tracked (ch : iochannel) (rhs : Bool) (h : ch.tracked) :
    (ch.push_bool rhs).tracked := by
  unfold push_bool
  split
  · exact h
  · exact inject_tracked ch _ _ h

theorem push_int_tracked (U : stdutils) (ch : iochannel) (rhs : Int) (h : ch.tracked) :
    (ch.push_int U rhs).tracked := by
  unfold push_int
  split
  · exact h
  · exact inject_tracked ch _ _ h

theorem push_long_int_tracked (U : stdutils) (ch : iochannel) (rhs : Int) (h : ch.tracked) :
    (ch.push_long_int U rhs).tracked := by
  unfold push_long_int
  split
  · exact h
  · exact inject_tracked ch _ _ h

theorem push_unsigned_int_tracked (U : stdutils) (ch : iochannel) (rhs : Nat) (h : ch.tracked) :
    (ch.push_unsigned_int U rhs).tracked := by
  unfold push_unsigned_int
  split
  · exact h
  · exact inject_tracked ch _ _ h

theorem push_unsigned_long_int_tracked (U : stdutils) (ch : iochannel) (rhs : Nat) (h : ch.tracked) :
    (ch.push_unsigned_long_int U rhs).tracked := by
  unfold push_unsigned_long_int
  split
  · exact h
  · exact inject_tracked ch _ _ h

theorem push_double_tracked (U : stdutils) (ch : iochannel) (rhs : CDouble) (h : ch.tracked) :
    (ch.push_double U rhs).tracked := by
  unfold push_double
  split
  · exact h
  · exact inject_tracked ch _ _ h

theorem push_float_tracked (U : stdutils) (ch : iochannel) (rhs : CDouble) (h : ch.tracked) :
    (ch.push_float U rhs).tracked := by
  unfold push_float
  split
  · exact h
  · exact push_double_tracked U ch rhs h

theorem push_char_tracked (U : stdutils) (ch : iochannel) (rhs : Char) (h : ch.tracked) :
    (ch.push_char U rhs).tracked := by
  unfold push_char
  split
  · exact h
  · split
    · exact inject_char_tracked ch rhs h
    · exact inject_tracked ch _ _ h

theorem push_char_ptr_tracked (U : stdutils) (ch : iochannel) (rhs : Pointer String)
    (h : ch.tracked) : (ch.push_char_ptr U rhs).tracked := by
  unfold push_char_ptr
  split
  · exact h
  · split
    · exact inject_tracked ch _ _ h
    · exact inject_ptr_tracked U ch _ _ _ _ h
    · exact inject_ptr_tracked U ch _ _ _ _ h

theorem push_void_ptr_tracked (U : stdutils) (ch : iochannel) (rhs : Pointer Unit)
    (h : ch.tracked) : (ch.push_void_ptr U rhs).tracked := by
  unfold push_void_ptr
  split
  · exact h
  · split
    · exact push_char_ptr_tracked U ch _ h
    · exact inject_ptr_tracked U ch _ _ _ _ h
    · exact inject_ptr_tracked U ch _ _ _ _ h

theorem push_string_tracked (ch : iochannel) (rhs : String) (h : ch.tracked) :
    (ch.push_string rhs).tracked := by
  unfold push_string
  split
  · exact h
  · exact inject_tracked ch _ _ h

theorem push_special_tracked (ch : iochannel) (rhs : IOSpecial) (h : ch.tracked) :
    (ch.push_special rhs).1.tracked := by
  have h1 := reset_attributes_tracked ch h
  cases rhs
  · exact transmit_tracked _ _ (inject_newline_tracked _ h1)
  · exact transmit_tracked _ _ (inject_newline_tracked _ h)
  · exact transmit_tracked _ _ (inject_tracked _ _ _ h1)
  · exact transmit_tracked _ _ (inject_tracked _ _ _ h)
  · exact inject_newline_tracked _ h1
  · exact inject_newline_tracked _ h

theorem push_tracked (U : stdutils) (ch : iochannel) (t : Token) (h : ch.tracked) :
    (ch.push U t).1.tracked := by
  cases t with
  | bool rhs => exact push_bool_tracked ch rhs h
  | bool_ptr rhs =>
    simp only [push, push_bool_ptr]
    split
    · exact h
    · split
      · exact push_bool_tracked ch _ h
      · exact inject_ptr_tracked U ch _ _ _ _ h
      · exact inject_ptr_tracked U ch _ _ _ _ h
  | int rhs => exact push_int_tracked U ch rhs h
  | int_ptr rhs =>
    simp only [push, push_int_ptr]
    split
    · exact h
    · split
      · exact push_int_tracked U ch _ h
      · exact inject_ptr_tracked U ch _ _ _ _ h
      · exact inject_ptr_tracked U ch _ _ _ _ h
  | long_int rhs => exact push_long_int_tracked U ch rhs h
  | long_int_ptr rhs =>
    simp only [push, push_long_int_ptr]
    split
    · exact h
    · split
      · exact push_long_int_tracked U ch _ h
      · exact inject_ptr_tracked U ch _ _ _ _ h
      · exact inject_ptr_tracked U ch _ _ _ _ h
  | unsigned_int rhs => exact push_unsigned_int_tracked U ch rhs h
  | unsigned_int_ptr rhs =>
    simp only [push, push_unsigned_int_ptr]
    split
    · exact h
    · split
      · exact push_unsigned_int_tracked U ch _ h
      · exact inject_ptr_tracked U ch _ _ _ _ h
      · exact inject_ptr_tracked U ch _ _ _ _ h
  | unsigned_long_int rhs => exact push_unsigned_long_int_tracked U ch rhs h
  | unsigned_long_int_ptr rhs =>
    simp only [push, push_unsigned_long_int_ptr]
    split
    · exact h
    · split
      · exact push_unsigned_long_int_tracked U ch _ h
      · exact inject_ptr_tracked U ch _ _ _ _ h
      · exact inject_ptr_tracked U ch _ _ _ _ h
  | float rhs => exact push_float_tracked U ch rhs h
  | float_ptr rhs =>
    simp only [push, push_float_ptr]
    split
    · exact h
    · split
      · exact push_float_tracked U ch _ h
      · exact inject_ptr_tracked U ch _ _ _ _ h
      · exact inject_ptr_tracked U ch _ _ _ _ h
  | double rhs => exact push_double_tracked U ch rhs h
  | double_ptr rhs =>
    simp only [push, push_double_ptr]
    split
    · exact h
    · split
      · exact push_double_tracked U ch _ h
      · exact inject_ptr_tracked U ch _ _ _ _ h
      · exact inject_ptr_tracked U ch _ _ _ _ h
  | void_ptr rhs => exact push_void_ptr_tracked U ch rhs h
  | char rhs => exact push_char_tracked U ch rhs h
  | char_ptr rhs => exact push_char_ptr_tracked U ch rhs h
  | string rhs => exact push_string_tracked ch rhs h
  | base rhs =>
    simp only [push, push_base]
    split
    · exact h
    · exact h
  | charval rhs =>
    simp only [push, push_charval]
    split
    · exact h
    · exact h
  | set_precision rhs =>
    simp only [push, push_set_precision]
    split
    · exact h
    · exact h
  | sci rhs =>
    simp only [push, push_sci]
    split
    · exact h
    · exact h
  | numcase rhs =>
    simp only [push, push_numcase]
    split
    · exact h
    · exact h
  | ptr rhs =>
    simp only [push, push_ptr]
    split
    · exact h
    · exact h
  | read_size rhs =>
    simp only [push, push_read_size]
    split
    · exact h
    · exact h
  | bg rhs =>
    simp only [push, push_bg]
    split
    · exact h
    · intro hd
      simp at hd
  | fg rhs =>
    simp only [push, push_fg]
    split
    · exact h
    · intro hd
      simp at hd
  | ta rhs =>
    simp only [push, push_ta]
    split
    · exact h
    · intro hd
      simp at hd
  | memsep rhs =>
    simp only [push, push_memsep]
    split
    · exact h
    · split
      · exact h
      · exact h
  | verbosity rhs => exact h
  | category rhs => exact h
  | special rhs => exact push_special_tracked ch rhs h

theorem run_tracked (U : stdutils) (ts : List Token) :
    ∀ ch : iochannel, ch.tracked → (ch.run U ts).1.tracked := by
  induction ts with
  | nil =>
    intro ch h
    exact h
  | cons t ts ih =>
    intro ch h
    simp only [run]
    exact ih _ (push_tracked U ch t h)

theorem init_tracked (process_v : IOFormatVerbosity) (process_c : Nat)
    (echomode : IOEchoMode) (echovrb : IOFormatVerbosity) (echocat : IOFormatCategory) :
    (init process_v process_c echomode echovrb echocat).tracked :=
  fun _ => rfl

end iochannel

/-! ## The dirty flag and the emitted attributes -/

/-- C24 as stated fails: on a fresh channel, foreground red, the text "x" and
foreground red again leave the dirty flag set although the escape sequence
emitted last carries exactly the current attribute triple. -/
theorem dirty_without_difference :
    ¬ ((iochannel.sample.run stdutils.reference
          [Token.fg 31, Token.string "x", Token.fg 31]).1.dirty_attributes = true
        ↔ (iochannel.sample.run stdutils.reference
            [Token.fg 31, Token.string "x", Token.fg 31]).1.emitted
          ≠ (iochannel.sample.run stdutils.reference
            [Token.fg 31, Token.string "x", Token.fg 31]).1.attributes) := by
  have hd : (iochannel.sample.run stdutils.reference
      [Token.fg 31, Token.string "x", Token.fg 31]).1.dirty_attributes = true := by decide!
  have he : (iochannel.sample.run stdutils.reference
      [Token.fg 31, Token.string "x", Token.fg 31]).1.emitted
        = (iochannel.sample.run stdutils.reference
          [Token.fg 31, Token.string "x", Token.fg 31]).1.attributes := by decide!
  intro h
  exact (h.1 hd) he

/-- C24, amended: in every state reachable from a fresh channel by appends,
modifier tokens, verbosity/category tokens and flush markers, the
dirty-attributes flag is true whenever the attribute triple (text attribute,
background, foreground) carried by the most recently emitted SGR sequence
(initially none, none, none) differs from the channel's current attribute
triple. -/
theorem dirty_covers_attribute_difference (U : stdutils) (process_v : IOFormatVerbosity)
    (process_c : Nat) (echomode : IOEchoMode) (echovrb : IOFormatVerbosity)
    (echocat : IOFormatCategory) (ts : List Token)
    (hdiff : ((iochannel.init process_v process_c echomode echovrb echocat).run U ts).1.emitted
      ≠ ((iochannel.init process_v process_c echomode echovrb echocat).run U ts).1.attributes) :
    ((iochannel.init process_v process_c echomode echovrb echocat).run U
      ts).1.dirty_attributes = true := by
  have h := iochannel.run_tracked U ts _
    (iochannel.init_tracked process_v process_c echomode echovrb echocat)
  cases hd : ((iochannel.init process_v process_c echomode echovrb echocat).run U
      ts).1.dirty_attributes
  · exact absurd (h hd) hdiff
  · rfl

theorem dirty_covers_attribute_difference_witness :
    ((iochannel.init .vrb_tmi 15 .echo_none .vrb_tmi .cat_all).run stdutils.reference
      [Token.string "x", Token.fg 31]).1.dirty_attributes = true :=
  dirty_covers_attribute_difference stdutils.reference .vrb_tmi 15 .echo_none .vrb_tmi .cat_all
    [Token.string "x", Token.fg 31] (by decide!)

/-! ## The size of the dump buffer -/

theorem iochannel.memsize_eq (memformat len : Nat) :
    iochannel.memsize memformat len
      = (let m0 := (len * 2 + 1) % 4294967296
         let m1 := if memformat &&& 1 ≠ 0 then (m0 + (len + 4294967296 - 1)) % 4294967296
           else m0
         if memformat &&& 2 ≠ 0 then
           let m2 := (m1 + len / 8) % 4294967296
           let m3 := if memformat &&& 1 ≠ 0 then (m2 + len / 8) % 4294967296 else m2
           if len % 8 = 0 then
             let m4 := (m3 + 4294967296 - 1) % 4294967296
             if memformat &&& 1 ≠ 0 then (m4 + 4294967296 - 1) % 4294967296 else m4
           else m3
         else m1) := by
  have e1 : (1 <<< 0 : Nat) = 1 := rfl
  have e2 : (1 <<< 1 : Nat) = 2 := rfl
  have e3 : (2 ^ 32 : Nat) = 4294967296 := by norm_num
  unfold iochannel.memsize
  simp only [e1, e2, e3, bne_iff_ne, ne_eq, beq_iff_eq, ite_not]

/-- C27: for every byte length `len >= 1` small enough that
`3*len + len/4 + 1` fits in 32 bits, and every memory-dump mask, the buffer
size computed by the dump branch of `inject` is at least the length of the
dump described by the spec plus one terminator, and equals it exactly unless
both the byte-separator and the word-separator flag are set. -/
theorem memsize_covers_dump (memformat len : Nat) (h1 : 1 ≤ len)
    (h2 : 3 * len + len / 4 + 1 < 2 ^ 32) :
    spec_dump_length memformat len + 1 ≤ iochannel.memsize memformat len ∧
    (¬ (memformat &&& mem_bytesep ≠ 0 ∧ memformat &&& mem_wordsep ≠ 0) →
      iochannel.memsize memformat len = spec_dump_length memformat len + 1) := by
  have e3 : (2 ^ 32 : Nat) = 4294967296 := by norm_num
  rw [e3] at h2
  have hlen : len ≤ 1431655764 := by omega
  have hq : 2 * (len / 8) ≤ len / 4 := by omega
  have m0 : (len * 2 + 1) % 4294967296 = len * 2 + 1 := Nat.mod_eq_of_lt (by omega)
  have m1 : (len * 2 + 1 + (len + 4294967296 - 1)) % 4294967296 = 3 * len := by
    have : len * 2 + 1 + (len + 4294967296 - 1) = 3 * len + 4294967296 := by omega
    rw [this, Nat.add_mod_right]
    exact Nat.mod_eq_of_lt (by omega)
  have dec : ∀ x : Nat, 1 ≤ x → x < 4294967296 →
      (x + 4294967296 - 1) % 4294967296 = x - 1 := by
    intro x hx1 hx2
    have : x + 4294967296 - 1 = (x - 1) + 4294967296 := by omega
    rw [this, Nat.add_mod_right]
    exact Nat.mod_eq_of_lt (by omega)
  rw [iochannel.memsize_eq]
  unfold spec_dump_length mem_bytesep mem_wordsep
  by_cases hb : memformat &&& 1 = 0
  · by_cases hw : memformat &&& 2 = 0
    · simp only [hb, hw, ne_eq, not_true_eq_false, ↓reduceIte, m0]
      omega
    · by_cases h8 : len % 8 = 0
      · simp only [hb, hw, h8, ne_eq, not_true_eq_false, not_false_eq_true, ↓reduceIte, m0]
        rw [Nat.mod_eq_of_lt (by omega : len * 2 + 1 + len / 8 < 4294967296),
          dec _ (by omega) (by omega)]
        omega
      · simp only [hb, hw, h8, ne_eq, not_true_eq_false, not_false_eq_true, ↓reduceIte, m0]
        rw [Nat.mod_eq_of_lt (by omega : len * 2 + 1 + len / 8 < 4294967296)]
        omega
  · by_cases hw : memformat &&& 2 = 0
    · simp only [hb, hw, ne_eq, not_true_eq_false, not_false_eq_true, ↓reduceIte, m0, m1]
      omega
    · by_cases h8 : len % 8 = 0
      · simp only [hb, hw, h8, ne_eq, not_false_eq_true, ↓reduceIte, m0, m1]
        rw [Nat.mod_eq_of_lt (by omega : 3 * len + len / 8 < 4294967296),
          Nat.mod_eq_of_lt (by omega : 3 * len + len / 8 + len / 8 < 4294967296),
          dec _ (by omega) (by omega), dec _ (by omega) (by omega)]
        exact ⟨by omega, fun h => absurd ⟨trivial, trivial⟩ h⟩
      · simp only [hb, hw, h8, ne_eq, not_false_eq_true, ↓reduceIte, m0, m1]
        rw [Nat.mod_eq_of_lt (by omega : 3 * len + len / 8 < 4294967296),
          Nat.mod_eq_of_lt (by omega : 3 * len + len / 8 + len / 8 < 4294967296)]
        exact ⟨by omega, fun h => absurd ⟨trivial, trivial⟩ h⟩

theorem memsize_covers_dump_witness :
    spec_dump_length 3 16 + 1 ≤ iochannel.memsize 3 16 ∧
      iochannel.memsize 1 4 = spec_dump_length 1 4 + 1 :=
  ⟨(memsize_covers_dump 3 16 (by decide) (by decide)).1,
    (memsize_covers_dump 1 4 (by decide) (by decide)).2 (by decide)⟩

/-- C28: the claim asks for a size of at least 1 without wrap-around for every
length, zero included; the code does not deliver it.  After `read_size(0)`, a
byte-separator token and pointer handling memory, an untyped pointer is dumped
with `len = 0`, and `memsize += len-1` wraps the size from 1 to 0; with the
word separator alone the decrement for `len % 8 == 0` also gives 0, and with
both flags the two decrements wrap below zero to 4294967294. -/
theorem memsize_wraps_for_zero_length :
    (iochannel.sample.run stdutils.reference
        [Token.read_size 0, Token.memsep mem_bytesep, Token.ptr .ptr_memory]).1.can_parse
      = true ∧
    (iochannel.sample.run stdutils.reference
        [Token.read_size 0, Token.memsep mem_bytesep, Token.ptr .ptr_memory]).1.ptr
      = .ptr_memory ∧
    iochannel.memsize
      (iochannel.sample.run stdutils.reference
        [Token.read_size 0, Token.memsep mem_bytesep, Token.ptr .ptr_memory]).1.memformat
      (iochannel.sample.run stdutils.reference
        [Token.read_size 0, Token.memsep mem_bytesep, Token.ptr .ptr_memory]).1.readsize = 0 ∧
    iochannel.memsize mem_wordsep 0 = 0 ∧
    iochannel.memsize (mem_bytesep ||| mem_wordsep) 0 = 4294967294 ∧
    iochannel.memsize 0 0 = 1 := by
  decide

end pawlib
